import Mathlib

/-!
# USI-based TWI/I2C slave (`i2cslave.c`, `i2cslave.h`)

A shallow embedding of the interrupt driven TWI slave of the ATtiny USI
peripheral.  The two interrupt service routines become functions on an explicit
machine state holding the I/O registers the code touches and the module's
global variables.  Eight-bit registers and `unsigned char` variables are `Nat`
values; every store to a register keeps the low eight bits (`% 256`).

The hardware acts between two interrupts (it shifts bits through `USIDR`); that
is modelled by `shiftIn`, which replaces the data register's contents.
-/

namespace I2cSlave

/-! ## Constants of `i2cslave.h` and `i2cslave.c` -/

/-- Capacity of the receive buffer: `TWI_RX_BUFFER_SIZE` in `i2cslave.h`. -/
abbrev TWI_RX_BUFFER_SIZE : Nat := 12

/-- Capacity of the transmit buffer: `TWI_TX_BUFFER_SIZE` in `i2cslave.h`. -/
abbrev TWI_TX_BUFFER_SIZE : Nat := 20

/-- State of the overflow interrupt: the address byte has been shifted in. -/
abbrev TWI_SLAVE_CHECK_ADDRESS : Nat := 0x01

/-- State of the overflow interrupt: load the next byte to transmit. -/
abbrev TWI_SLAVE_SEND_DATA : Nat := 0x02

/-- State of the overflow interrupt: arm the sampling of the master's reply. -/
abbrev TWI_SLAVE_REQUEST_REPLY_FROM_SEND_DATA : Nat := 0x03

/-- State of the overflow interrupt: the master's reply has been sampled. -/
abbrev TWI_SLAVE_CHECK_REPLY_FROM_SEND_DATA : Nat := 0x04

/-- State of the overflow interrupt: arm the reception of a data byte. -/
abbrev TWI_SLAVE_REQUEST_DATA : Nat := 0x05

/-- State of the overflow interrupt: a data byte has been shifted in. -/
abbrev TWI_SLAVE_GET_DATA_AND_SEND_ACK : Nat := 0x06

/-- Bit numbers that `i2cslave.c` takes from `<avr/io.h>`, a header of the
compiler's library and not of the repository.  They are a parameter of the
model: `PORTB5` and `PORTB7` are the pins of port B used for SDA and SCL, the
next eight name the bits of the control register `USICR`, the last five the
bits of the status register `USISR` (`USICNT0` is the lowest bit of its
four-bit counter). -/
structure IoBits where
  PORTB5 : Nat
  PORTB7 : Nat
  USISIE : Nat
  USIOIE : Nat
  USIWM1 : Nat
  USIWM0 : Nat
  USICS1 : Nat
  USICS0 : Nat
  USICLK : Nat
  USITC : Nat
  USISIF : Nat
  USIOIF : Nat
  USIPF : Nat
  USIDC : Nat
  USICNT0 : Nat

/-- The bit names of `USICR`, in the order the source lists them. -/
def IoBits.crBits (L : IoBits) : List Nat :=
  [L.USISIE, L.USIOIE, L.USIWM1, L.USIWM0, L.USICS1, L.USICS0, L.USICLK, L.USITC]

/-- The flag bits of `USISR`. -/
def IoBits.srFlags (L : IoBits) : List Nat :=
  [L.USISIF, L.USIOIF, L.USIPF, L.USIDC]

/-- A header is usable when the bit names of one eight-bit register stand for
different bits below 8, the four-bit counter of `USISR` lies below its flags,
and SDA and SCL are different pins of the port. -/
def IoBits.Valid (L : IoBits) : Prop :=
  L.crBits.Nodup ∧ (∀ b ∈ L.crBits, b < 8) ∧
  L.srFlags.Nodup ∧ (∀ b ∈ L.srFlags, L.USICNT0 + 4 ≤ b ∧ b < 8) ∧
  L.PORTB5 < 8 ∧ L.PORTB7 < 8 ∧ L.PORTB5 ≠ L.PORTB7

/-- The bit numbers of the ATtiny2313 (the target named in the source's header
comment), as its data sheet and `<avr/io.h>` give them. -/
def attiny2313 : IoBits where
  PORTB5 := 5
  PORTB7 := 7
  USISIE := 7
  USIOIE := 6
  USIWM1 := 5
  USIWM0 := 4
  USICS1 := 3
  USICS0 := 2
  USICLK := 1
  USITC := 0
  USISIF := 7
  USIOIF := 6
  USIPF := 5
  USIDC := 4
  USICNT0 := 0

/-- Pin of the data line: `#define PORT_TWI_SDA PORTB5`. -/
abbrev PORT_TWI_SDA (L : IoBits) : Nat := L.PORTB5

/-- Pin of the clock line: `#define PORT_TWI_SCL PORTB7`. -/
abbrev PORT_TWI_SCL (L : IoBits) : Nat := L.PORTB7

/-- Explicit name of a `USISR` flag: `USISIF`. -/
abbrev START_CONDITION_INT_FLAG (L : IoBits) : Nat := L.USISIF

/-- Explicit name of a `USISR` flag: `USIOIF`. -/
abbrev COUNTER_OVERFLOW_INT_FLAG (L : IoBits) : Nat := L.USIOIF

/-- Explicit name of a `USISR` flag: `USIPF`. -/
abbrev STOP_CONDITION_INT_FLAG (L : IoBits) : Nat := L.USIPF

/-- Explicit name of a `USISR` flag: `USIDC`. -/
abbrev DATA_OUTPUT_COLLISION_INT_FLAG (L : IoBits) : Nat := L.USIDC

/-! ## Machine state -/

/-- The I/O registers written by the code (`DDR_USI` is `DDRB`, `PORT_USI` is
`PORTB`) and the global variables of `i2cslave.c`.  `USISR` and `USICR` hold
the value last stored by the code.  The two buffers are C arrays of fixed
size. -/
structure State where
  DDR_USI : Nat
  PORT_USI : Nat
  USICR : Nat
  USISR : Nat
  USIDR : Nat
  TWI_slaveAddress : Nat
  TWI_RxBuf : Fin TWI_RX_BUFFER_SIZE → Nat
  TWI_TxBuf : Fin TWI_TX_BUFFER_SIZE → Nat
  TWI_rxBufIdx : Nat
  TWI_txBufIdx : Nat
  bNewIncomingFrame : Nat
  bNewIncomingByte : Nat
  USI_TWI_Overflow_State : Nat

/-- The C expression `r & ~m` stored into an eight-bit register: the bits of
`m` are cleared in `r` and the low eight bits are kept. -/
def andNot8 (r m : Nat) : Nat := r &&& (0xFF ^^^ (m % 256))

/-- Array read `buf[i]` of a C array of `n` elements; an index outside the
array has no defined result. -/
def readBuf {n : Nat} (buf : Fin n → Nat) (i : Nat) : Option Nat :=
  if h : i < n then some (buf ⟨i, h⟩) else none

/-- Array store `buf[i] = v` into a C array of `n` elements; an index outside
the array has no defined result. -/
def writeBuf {n : Nat} (buf : Fin n → Nat) (i v : Nat) : Option (Fin n → Nat) :=
  if h : i < n then some (Function.update buf ⟨i, h⟩ v) else none

/-! ## The register digests (macros of `i2cslave.c`) -/

/-- Value stored into `USISR` by the digests: start-condition flag left alone,
the three other flags cleared (written as 1), counter set to `cnt`. -/
def usisrValue (L : IoBits) (cnt : Nat) : Nat :=
  ((0 <<< START_CONDITION_INT_FLAG L) ||| (1 <<< COUNTER_OVERFLOW_INT_FLAG L) |||
   (1 <<< STOP_CONDITION_INT_FLAG L) ||| (1 <<< DATA_OUTPUT_COLLISION_INT_FLAG L) |||
   (cnt <<< L.USICNT0)) % 256

/-- Macro `SET_TWI_TO_SEND_ACK`. -/
def SET_TWI_TO_SEND_ACK (L : IoBits) (s : State) : State :=
  let s := { s with USIDR := 0 }
  let s := { s with DDR_USI := (s.DDR_USI ||| (1 <<< PORT_TWI_SDA L)) % 256 }
  { s with USISR := usisrValue L 0xe }

/-- Macro `SET_TWI_TO_READ_ACK`. -/
def SET_TWI_TO_READ_ACK (L : IoBits) (s : State) : State :=
  let s := { s with DDR_USI := andNot8 s.DDR_USI (1 <<< PORT_TWI_SDA L) }
  let s := { s with USIDR := 0 }
  { s with USISR := usisrValue L 0xe }

/-- Value stored into `USICR` by `SET_TWI_TO_START_CONDITION_MODE` and by
`USI_TWI_Slave_Initialize`: start-condition interrupt on, overflow interrupt
off, two-wire mode without overflow hold, external clock. -/
def usicrIdle (L : IoBits) : Nat :=
  ((1 <<< L.USISIE) ||| (0 <<< L.USIOIE) ||| (1 <<< L.USIWM1) ||| (0 <<< L.USIWM0) |||
   (1 <<< L.USICS1) ||| (0 <<< L.USICS0) ||| (0 <<< L.USICLK) ||| (0 <<< L.USITC)) % 256

/-- Value stored into `USICR` by the start-condition interrupt: both interrupts
on, two-wire mode with overflow hold, external clock. -/
def usicrActive (L : IoBits) : Nat :=
  ((1 <<< L.USISIE) ||| (1 <<< L.USIOIE) ||| (1 <<< L.USIWM1) ||| (1 <<< L.USIWM0) |||
   (1 <<< L.USICS1) ||| (0 <<< L.USICS0) ||| (0 <<< L.USICLK) ||| (0 <<< L.USITC)) % 256

/-- Macro `SET_TWI_TO_START_CONDITION_MODE`. -/
def SET_TWI_TO_START_CONDITION_MODE (L : IoBits) (s : State) : State :=
  let s := { s with DDR_USI := andNot8 s.DDR_USI (1 <<< PORT_TWI_SDA L) }
  let s := { s with USICR := usicrIdle L }
  { s with USISR := usisrValue L 0x0 }

/-- Macro `SET_TWI_TO_SEND_DATA`. -/
def SET_TWI_TO_SEND_DATA (L : IoBits) (s : State) : State :=
  let s := { s with DDR_USI := (s.DDR_USI ||| (1 <<< PORT_TWI_SDA L)) % 256 }
  { s with USISR := usisrValue L 0x0 }

/-- Macro `SET_TWI_TO_READ_DATA`. -/
def SET_TWI_TO_READ_DATA (L : IoBits) (s : State) : State :=
  let s := { s with DDR_USI := andNot8 s.DDR_USI (1 <<< PORT_TWI_SDA L) }
  { s with USISR := usisrValue L 0x0 }

/-! ## The start-condition interrupt -/

/-- The busy-wait of `ISR(USI_START_vect)`:
`while (PIN_USI & (1<<PORT_TWI_SCL)) { if (PIN_USI & (1<<PORT_TWI_SDA)) break; }`.
`PIN_USI` is volatile: every evaluation reads the pins anew, and the list holds
the successive values read.  The result is `true` when the loop is left within
these samples. -/
def startWait (L : IoBits) : List Nat → Bool
  | [] => false
  | p :: rest =>
    if p &&& (1 <<< PORT_TWI_SCL L) ≠ 0 then
      match rest with
      | [] => false
      | q :: rest2 =>
        if q &&& (1 <<< PORT_TWI_SDA L) ≠ 0 then true else startWait L rest2
    else true

/-- The start-condition interrupt `ISR(USI_START_vect)`, given the successive
values `pins` read from `PIN_USI`.  `none` when the busy-wait is not left within
the samples. -/
def USI_START (L : IoBits) (pins : List Nat) (s : State) : Option State :=
  let s := { s with DDR_USI := andNot8 s.DDR_USI (1 <<< PORT_TWI_SDA L) }
  let s := { s with USICR := usicrActive L }
  if startWait L pins then
    let s := { s with USISR :=
      ((1 <<< L.USISIF) ||| (1 <<< COUNTER_OVERFLOW_INT_FLAG L) |||
       (1 <<< STOP_CONDITION_INT_FLAG L) ||| (1 <<< DATA_OUTPUT_COLLISION_INT_FLAG L) |||
       (0x0 <<< L.USICNT0)) % 256 }
    some { s with USI_TWI_Overflow_State := TWI_SLAVE_CHECK_ADDRESS }
  else none

/-! ## The counter-overflow interrupt -/

/-- The code under `case TWI_SLAVE_SEND_DATA:` of `ISR(USI_OVERFLOW_vect)`,
which `case TWI_SLAVE_CHECK_REPLY_FROM_SEND_DATA:` drops into. -/
def caseSendData (L : IoBits) (s : State) : Option State :=
  if s.TWI_txBufIdx < TWI_TX_BUFFER_SIZE then
    match readBuf s.TWI_TxBuf s.TWI_txBufIdx with
    | none => none
    | some d =>
      let s := { s with USIDR := d, TWI_txBufIdx := (s.TWI_txBufIdx + 1) % 256 }
      let s := { s with USI_TWI_Overflow_State := TWI_SLAVE_REQUEST_REPLY_FROM_SEND_DATA }
      some (SET_TWI_TO_SEND_DATA L s)
  else
    some (SET_TWI_TO_START_CONDITION_MODE L s)

/-- The code under `case TWI_SLAVE_GET_DATA_AND_SEND_ACK:`. -/
def caseGetData (L : IoBits) (s : State) : Option State :=
  let stored : Option State :=
    if s.TWI_rxBufIdx < TWI_RX_BUFFER_SIZE then
      match writeBuf s.TWI_RxBuf s.TWI_rxBufIdx s.USIDR with
      | none => none
      | some buf =>
        let s := { s with TWI_RxBuf := buf, TWI_rxBufIdx := (s.TWI_rxBufIdx + 1) % 256 }
        let s := if s.TWI_rxBufIdx = 1 then { s with bNewIncomingFrame := 1 } else s
        some { s with bNewIncomingByte := 1 }
    else some s
  match stored with
  | none => none
  | some s =>
    let s := { s with USI_TWI_Overflow_State := TWI_SLAVE_REQUEST_DATA }
    some (SET_TWI_TO_SEND_ACK L s)

/-- The counter-overflow interrupt `ISR(USI_OVERFLOW_vect)`: one step of the
shift engine.  `none` only when an array would be indexed outside its bounds. -/
def USI_OVERFLOW (L : IoBits) (s : State) : Option State :=
  if s.USI_TWI_Overflow_State = TWI_SLAVE_CHECK_ADDRESS then
    if (s.USIDR &&& 0xfe) = s.TWI_slaveAddress then
      let s :=
        if (s.USIDR &&& 0x01) ≠ 0 then
          { s with USI_TWI_Overflow_State := TWI_SLAVE_SEND_DATA, TWI_txBufIdx := 0 }
        else
          { s with USI_TWI_Overflow_State := TWI_SLAVE_REQUEST_DATA, TWI_rxBufIdx := 0 }
      some (SET_TWI_TO_SEND_ACK L s)
    else
      some (SET_TWI_TO_START_CONDITION_MODE L s)
  else if s.USI_TWI_Overflow_State = TWI_SLAVE_CHECK_REPLY_FROM_SEND_DATA then
    if s.USIDR ≠ 0 then
      some (SET_TWI_TO_START_CONDITION_MODE L s)
    else
      caseSendData L s
  else if s.USI_TWI_Overflow_State = TWI_SLAVE_SEND_DATA then
    caseSendData L s
  else if s.USI_TWI_Overflow_State = TWI_SLAVE_REQUEST_REPLY_FROM_SEND_DATA then
    let s := { s with USI_TWI_Overflow_State := TWI_SLAVE_CHECK_REPLY_FROM_SEND_DATA }
    some (SET_TWI_TO_READ_ACK L s)
  else if s.USI_TWI_Overflow_State = TWI_SLAVE_REQUEST_DATA then
    let s := { s with USI_TWI_Overflow_State := TWI_SLAVE_GET_DATA_AND_SEND_ACK }
    some (SET_TWI_TO_READ_DATA L s)
  else if s.USI_TWI_Overflow_State = TWI_SLAVE_GET_DATA_AND_SEND_ACK then
    caseGetData L s
  else
    some s

/-! ## Initialisation -/

/-- The initialisation routine `USI_TWI_Slave_Initialize`. -/
def USI_TWI_Slave_Initialize (L : IoBits) (s : State) : State :=
  let s := { s with PORT_USI := (s.PORT_USI ||| (1 <<< PORT_TWI_SCL L)) % 256 }
  let s := { s with PORT_USI := (s.PORT_USI ||| (1 <<< PORT_TWI_SDA L)) % 256 }
  let s := { s with DDR_USI := (s.DDR_USI ||| (1 <<< PORT_TWI_SCL L)) % 256 }
  let s := { s with DDR_USI := andNot8 s.DDR_USI (1 <<< PORT_TWI_SDA L) }
  let s := { s with USICR := usicrIdle L }
  { s with USISR :=
      ((1 <<< START_CONDITION_INT_FLAG L) ||| (1 <<< COUNTER_OVERFLOW_INT_FLAG L) |||
       (1 <<< STOP_CONDITION_INT_FLAG L) ||| (1 <<< DATA_OUTPUT_COLLISION_INT_FLAG L) |||
       (0x0 <<< L.USICNT0)) % 256 }

/-! ## Observations on the peripheral -/

/-- The value of the four-bit counter field of `USISR`: 0 lets the counter
overflow after 16 clock edges (8 bits), 0xe after 2 edges (1 bit). -/
def counterValue (L : IoBits) (s : State) : Nat := (s.USISR >>> L.USICNT0) % 16

/-- The idle configuration: overflow interrupt disabled, start-condition
interrupt enabled, SDA an input. -/
def idleConfig (L : IoBits) (s : State) : Prop :=
  s.USICR.testBit L.USIOIE = false ∧ s.USICR.testBit L.USISIE = true ∧
  s.DDR_USI.testBit (PORT_TWI_SDA L) = false

/-- The acknowledge bit is armed: data register 0, SDA driven as an output,
counter set for one bit. -/
def ackArmed (L : IoBits) (s : State) : Prop :=
  s.USIDR = 0 ∧ s.DDR_USI.testBit (PORT_TWI_SDA L) = true ∧ counterValue L s = 0xe

/-! ## Bus scenarios

Sequences of interrupts as a bus transaction produces them.  Between two
overflow interrupts the hardware shifts a byte or an acknowledge bit into
`USIDR`. -/

/-- The hardware has shifted the value `b` into the data register. -/
def shiftIn (b : Nat) (s : State) : State := { s with USIDR := b }

/-- Start condition, then the overflow interrupt that finds the address byte
`a` in the data register. -/
def addressPhase (L : IoBits) (pins : List Nat) (a : Nat) (s : State) : Option State :=
  (USI_START L pins s).bind fun s0 => USI_OVERFLOW L (shiftIn a s0)

/-- One received data byte: the overflow interrupt that arms the reception,
then the one that finds `b` in the data register. -/
def writeRound (L : IoBits) (s : State) (b : Nat) : Option State :=
  (USI_OVERFLOW L s).bind fun s1 => USI_OVERFLOW L (shiftIn b s1)

/-- The data bytes of a master write, one round each. -/
def writeRounds (L : IoBits) : List Nat → State → Option State
  | [], s => some s
  | b :: bs, s => (writeRound L s b).bind (writeRounds L bs)

/-- A master write: start condition, address byte `a`, data bytes `bs`. -/
def writeTransaction (L : IoBits) (pins : List Nat) (a : Nat) (bs : List Nat) (s : State) :
    Option State :=
  (addressPhase L pins a s).bind (writeRounds L bs)

/-- The master's reply to a transmitted byte: the overflow interrupt that arms
the sampling of the reply, then the one that finds the reply `x` in the data
register (0 is an acknowledge). -/
def replyRound (L : IoBits) (x : Nat) (s : State) : Option State :=
  (USI_OVERFLOW L s).bind fun s1 => USI_OVERFLOW L (shiftIn x s1)

/-- The master acknowledges `n` bytes in a row. -/
def ackRounds (L : IoBits) : Nat → State → Option State
  | 0, s => some s
  | n + 1, s => (replyRound L 0 s).bind (ackRounds L n)

/-- A master read in which the master has acknowledged `n` bytes: start
condition, address byte `a`, the overflow interrupt that loads the first byte,
then `n` acknowledges, each handled by `replyRound`. -/
def readTransaction (L : IoBits) (pins : List Nat) (a : Nat) (n : Nat) (s : State) :
    Option State :=
  ((addressPhase L pins a s).bind (USI_OVERFLOW L)).bind (ackRounds L n)

/-- Overflow interrupts fired one after the other, each finding the next value
of `xs` in the data register. -/
def overflowSteps (L : IoBits) : List Nat → State → Option State
  | [], s => some s
  | x :: xs, s => (USI_OVERFLOW L (shiftIn x s)).bind (overflowSteps L xs)

/-! ## Concrete states used as examples -/

/-- A device at address 0x40 (stored pre-shifted), registers and variables
cleared, transmit buffer holding 0xA0, 0xA1, ... -/
def demoState : State where
  DDR_USI := 0
  PORT_USI := 0
  USICR := 0
  USISR := 0
  USIDR := 0
  TWI_slaveAddress := 0x40
  TWI_RxBuf := fun _ => 0
  TWI_TxBuf := fun i => 0xA0 + i.val
  TWI_rxBufIdx := 0
  TWI_txBufIdx := 0
  bNewIncomingFrame := 0
  bNewIncomingByte := 0
  USI_TWI_Overflow_State := 0

/-- Pin samples with SCL already low: the busy-wait is left at once. -/
def demoPins : List Nat := [0]


/-- The collaborator's code stores `fr` into the frame-started flag and `fb`
into the byte-received flag. -/
def setFlags (fr fb : Nat) (s : State) : State :=
  { s with bNewIncomingFrame := fr, bNewIncomingByte := fb }

/-- The state the shift engine is in between two data bytes of a master write:
an acknowledge has been armed and the next state is `TWI_SLAVE_REQUEST_DATA`. -/
def writeReady (L : IoBits) (s : State) : Prop :=
  s.USI_TWI_Overflow_State = TWI_SLAVE_REQUEST_DATA ∧ s.USIDR = 0 ∧
  s.USISR = usisrValue L 0xe ∧ ∃ d, s.DDR_USI = (d ||| (1 <<< PORT_TWI_SDA L)) % 256

/-- The state the shift engine is left in when the transmit buffer is used up:
the reply check found the index at the end of the buffer and put the
peripheral into start-condition mode. -/
def txDone (L : IoBits) (s : State) : Prop :=
  s.USI_TWI_Overflow_State = TWI_SLAVE_CHECK_REPLY_FROM_SEND_DATA ∧
  ¬ s.TWI_txBufIdx < TWI_TX_BUFFER_SIZE ∧
  s.USICR = usicrIdle L ∧ s.USISR = usisrValue L 0x0 ∧
  ∃ d, s.DDR_USI = andNot8 d (1 <<< PORT_TWI_SDA L)

/-- The overflow interrupt answers the byte it finds: it returns with the
acknowledge armed. -/
def accepts (L : IoBits) (s : State) : Prop :=
  ∃ t, USI_OVERFLOW L s = some t ∧ ackArmed L t

/-- The overflow interrupt ignores the byte it finds: it returns in the idle
configuration and has left the data register alone. -/
def rejects (L : IoBits) (s : State) : Prop :=
  ∃ t, USI_OVERFLOW L s = some t ∧ idleConfig L t ∧ t.USIDR = s.USIDR

/-- A device in the middle of a master write whose receive buffer is full: the
thirteenth data byte 0x55 has been shifted in, the collaborator has cleared
both flags. -/
def rxFullState : State where
  DDR_USI := 0x80
  PORT_USI := 0xA0
  USICR := 0xF8
  USISR := 0x70
  USIDR := 0x55
  TWI_slaveAddress := 0x40
  TWI_RxBuf := fun i => i.val + 1
  TWI_TxBuf := fun _ => 0
  TWI_rxBufIdx := 12
  TWI_txBufIdx := 0
  bNewIncomingFrame := 0
  bNewIncomingByte := 0
  USI_TWI_Overflow_State := TWI_SLAVE_GET_DATA_AND_SEND_ACK


/-! ## Invariants and event sequences -/

/-- Both buffer indices lie within their buffers' capacities. -/
def cursorsInRange (s : State) : Prop :=
  s.TWI_rxBufIdx ≤ TWI_RX_BUFFER_SIZE ∧ s.TWI_txBufIdx ≤ TWI_TX_BUFFER_SIZE

/-- A notification flag that is set (non-zero) in `s` is still set in `t`. -/
def flagsKept (s t : State) : Prop :=
  (s.bNewIncomingFrame ≠ 0 → t.bNewIncomingFrame ≠ 0) ∧
  (s.bNewIncomingByte ≠ 0 → t.bNewIncomingByte ≠ 0)

/-- What the bus makes the core do: a start condition, served by the
start-condition interrupt that reads the pin samples `pins`, or a counter
overflow, served by the overflow interrupt that finds `x` in the data
register. -/
inductive BusEvent where
  | start (pins : List Nat)
  | overflow (x : Nat)

/-- The core serves the events of a list one after the other. -/
def runEvents (L : IoBits) : List BusEvent → State → Option State
  | [], s => some s
  | BusEvent.start pins :: es, s => (USI_START L pins s).bind (runEvents L es)
  | BusEvent.overflow x :: es, s => (USI_OVERFLOW L (shiftIn x s)).bind (runEvents L es)

/-- A device in a master read whose twenty bytes have all been sent: the reply
to the last byte, an acknowledge, has been sampled. -/
def txEndState : State where
  DDR_USI := 0x80
  PORT_USI := 0xA0
  USICR := 0xF8
  USISR := 0x7E
  USIDR := 0
  TWI_slaveAddress := 0x40
  TWI_RxBuf := fun _ => 0
  TWI_TxBuf := fun i => 0xA0 + i.val
  TWI_rxBufIdx := 0
  TWI_txBufIdx := 20
  bNewIncomingFrame := 0
  bNewIncomingByte := 0
  USI_TWI_Overflow_State := TWI_SLAVE_CHECK_REPLY_FROM_SEND_DATA

/-- A device in a master read at the reply check after its first byte, with the
value 2 in the data register: the least-significant bit is clear, the register
is not zero. -/
def replyTwoState : State where
  DDR_USI := 0x80
  PORT_USI := 0xA0
  USICR := 0xF8
  USISR := 0x7E
  USIDR := 2
  TWI_slaveAddress := 0x40
  TWI_RxBuf := fun _ => 0
  TWI_TxBuf := fun i => 0xA0 + i.val
  TWI_rxBufIdx := 0
  TWI_txBufIdx := 1
  bNewIncomingFrame := 0
  bNewIncomingByte := 0
  USI_TWI_Overflow_State := TWI_SLAVE_CHECK_REPLY_FROM_SEND_DATA

/-- A device configured with the odd address 0x41, after a start condition. -/
def oddAddressState : State :=
  { demoState with TWI_slaveAddress := 0x41, USI_TWI_Overflow_State := TWI_SLAVE_CHECK_ADDRESS }


/-! ## Bit-level facts -/

theorem testBit_andNot8 (r m i : Nat) :
    (andNot8 r m).testBit i = (decide (i < 8) && r.testBit i && !m.testBit i) := by
  have h255 : (0xFF : Nat) = 2 ^ 8 - 1 := by norm_num
  have h256 : (256 : Nat) = 2 ^ 8 := by norm_num
  unfold andNot8
  rw [Nat.testBit_and, Nat.testBit_xor, h255, Nat.testBit_two_pow_sub_one, h256,
    Nat.testBit_mod_two_pow]
  by_cases hi : i < 8 <;> simp [hi]

theorem testBit_one_shiftLeft (a i : Nat) : (1 <<< a).testBit i = decide (a = i) := by
  rw [Nat.one_shiftLeft, Nat.testBit_two_pow]

theorem testBit_mod_256 (x i : Nat) : (x % 256).testBit i = (decide (i < 8) && x.testBit i) := by
  have h256 : (256 : Nat) = 2 ^ 8 := by norm_num
  rw [h256, Nat.testBit_mod_two_pow]

theorem valid_cr (L : IoBits) (hL : L.Valid) :
    L.USISIE < 8 ∧ L.USIOIE < 8 ∧ L.USIOIE ≠ L.USISIE ∧ L.USIOIE ≠ L.USIWM1 ∧
    L.USIOIE ≠ L.USICS1 := by
  simp only [IoBits.Valid, IoBits.crBits, IoBits.srFlags] at hL
  obtain ⟨h1, h2, -⟩ := hL
  simp only [List.nodup_cons, List.mem_cons, not_or] at h1
  simp only [List.mem_cons, forall_eq_or_imp] at h2
  obtain ⟨⟨a1, a2, -⟩, ⟨b1, -, b2, -⟩, -⟩ := h1
  obtain ⟨c1, c2, -⟩ := h2
  exact ⟨c1, c2, fun h => a1 h.symm, b1, b2⟩

theorem usicrIdle_USIOIE (L : IoBits) (hL : L.Valid) :
    (usicrIdle L).testBit L.USIOIE = false := by
  obtain ⟨-, h2, h3, h4, h5⟩ := valid_cr L hL
  simp only [usicrIdle, testBit_mod_256, Nat.testBit_or, testBit_one_shiftLeft,
    Nat.zero_shiftLeft, Nat.zero_testBit]
  simp [h2, Ne.symm h3, Ne.symm h4, Ne.symm h5]

theorem usicrIdle_USISIE (L : IoBits) (hL : L.Valid) :
    (usicrIdle L).testBit L.USISIE = true := by
  obtain ⟨h1, -⟩ := valid_cr L hL
  simp only [usicrIdle, testBit_mod_256, Nat.testBit_or, testBit_one_shiftLeft]
  simp [h1]

theorem usicrActive_USIOIE (L : IoBits) (hL : L.Valid) :
    (usicrActive L).testBit L.USIOIE = true := by
  obtain ⟨-, h2, -⟩ := valid_cr L hL
  simp only [usicrActive, testBit_mod_256, Nat.testBit_or, testBit_one_shiftLeft]
  simp [h2]

theorem usicrActive_USISIE (L : IoBits) (hL : L.Valid) :
    (usicrActive L).testBit L.USISIE = true := by
  obtain ⟨h1, -⟩ := valid_cr L hL
  simp only [usicrActive, testBit_mod_256, Nat.testBit_or, testBit_one_shiftLeft]
  simp [h1]

theorem valid_sr (L : IoBits) (hL : L.Valid) :
    (L.USICNT0 + 4 ≤ L.USIOIF ∧ L.USICNT0 + 4 ≤ L.USIPF ∧ L.USICNT0 + 4 ≤ L.USIDC) ∧
    L.USICNT0 + 4 ≤ 8 := by
  simp only [IoBits.Valid, IoBits.crBits, IoBits.srFlags] at hL
  obtain ⟨-, -, -, h, -⟩ := hL
  simp only [List.mem_cons, forall_eq_or_imp] at h
  obtain ⟨-, ⟨a1, a2⟩, ⟨b1, -⟩, ⟨c1, -⟩, -⟩ := h
  exact ⟨⟨a1, b1, c1⟩, by omega⟩

theorem usisrValue_counter (L : IoBits) (hL : L.Valid) (c : Nat) (hc : c < 16) :
    (usisrValue L c >>> L.USICNT0) % 16 = c := by
  obtain ⟨⟨h1, h2, h3⟩, h4⟩ := valid_sr L hL
  have h16 : (16 : Nat) = 2 ^ 4 := by norm_num
  apply Nat.eq_of_testBit_eq
  intro i
  rw [h16, Nat.testBit_mod_two_pow, Nat.testBit_shiftRight]
  by_cases hi : i < 4
  · have e1 : ¬ (L.USIOIF = L.USICNT0 + i) := by omega
    have e2 : ¬ (L.USIPF = L.USICNT0 + i) := by omega
    have e3 : ¬ (L.USIDC = L.USICNT0 + i) := by omega
    have e4 : L.USICNT0 + i < 8 := by omega
    simp only [usisrValue, START_CONDITION_INT_FLAG, COUNTER_OVERFLOW_INT_FLAG,
      STOP_CONDITION_INT_FLAG, DATA_OUTPUT_COLLISION_INT_FLAG, testBit_mod_256, Nat.testBit_or,
      testBit_one_shiftLeft, Nat.zero_shiftLeft, Nat.zero_testBit]
    simp [Nat.testBit_shiftLeft, hi, e1, e2, e3, e4]
  · have : c < 2 ^ i := lt_of_lt_of_le (by omega : c < 2 ^ 4) (Nat.pow_le_pow_right (by norm_num) (by omega))
    simp [hi, Nat.testBit_lt_two_pow this]

theorem valid_sda (L : IoBits) (hL : L.Valid) : L.PORTB5 < 8 := by
  simp only [IoBits.Valid] at hL
  exact hL.2.2.2.2.1

theorem testBit_setSDA (L : IoBits) (hL : L.Valid) (d : Nat) :
    ((d ||| (1 <<< PORT_TWI_SDA L)) % 256).testBit (PORT_TWI_SDA L) = true := by
  simp only [PORT_TWI_SDA, testBit_mod_256, Nat.testBit_or, testBit_one_shiftLeft]
  simp [valid_sda L hL]

theorem testBit_clearSDA (L : IoBits) (d : Nat) :
    (andNot8 d (1 <<< PORT_TWI_SDA L)).testBit (PORT_TWI_SDA L) = false := by
  simp only [PORT_TWI_SDA, testBit_andNot8, testBit_one_shiftLeft]
  simp

theorem attiny2313_valid : attiny2313.Valid := by
  simp [IoBits.Valid, IoBits.crBits, IoBits.srFlags, attiny2313]


/-! ## Single steps of the shift engine -/

theorem caseGetData_store (L : IoBits) (s : State) (h : s.TWI_rxBufIdx < TWI_RX_BUFFER_SIZE) :
    caseGetData L s = some (SET_TWI_TO_SEND_ACK L
      { s with
        TWI_RxBuf := Function.update s.TWI_RxBuf ⟨s.TWI_rxBufIdx, h⟩ s.USIDR
        TWI_rxBufIdx := s.TWI_rxBufIdx + 1
        bNewIncomingFrame := if s.TWI_rxBufIdx = 0 then 1 else s.bNewIncomingFrame
        bNewIncomingByte := 1
        USI_TWI_Overflow_State := TWI_SLAVE_REQUEST_DATA }) := by
  have h256 : (s.TWI_rxBufIdx + 1) % 256 = s.TWI_rxBufIdx + 1 :=
    Nat.mod_eq_of_lt (by simp only [TWI_RX_BUFFER_SIZE] at h; omega)
  simp only [caseGetData, writeBuf, h, if_true, dif_pos, h256]
  by_cases h0 : s.TWI_rxBufIdx = 0 <;> simp [h0]

theorem caseGetData_full (L : IoBits) (s : State) (h : ¬ s.TWI_rxBufIdx < TWI_RX_BUFFER_SIZE) :
    caseGetData L s = some (SET_TWI_TO_SEND_ACK L
      { s with USI_TWI_Overflow_State := TWI_SLAVE_REQUEST_DATA }) := by
  simp [caseGetData, h]

theorem caseSendData_load (L : IoBits) (s : State) (h : s.TWI_txBufIdx < TWI_TX_BUFFER_SIZE) :
    caseSendData L s = some (SET_TWI_TO_SEND_DATA L
      { s with
        USIDR := s.TWI_TxBuf ⟨s.TWI_txBufIdx, h⟩
        TWI_txBufIdx := s.TWI_txBufIdx + 1
        USI_TWI_Overflow_State := TWI_SLAVE_REQUEST_REPLY_FROM_SEND_DATA }) := by
  have h256 : (s.TWI_txBufIdx + 1) % 256 = s.TWI_txBufIdx + 1 :=
    Nat.mod_eq_of_lt (by simp only [TWI_TX_BUFFER_SIZE] at h; omega)
  simp [caseSendData, readBuf, h, h256]

theorem caseSendData_exhausted (L : IoBits) (s : State)
    (h : ¬ s.TWI_txBufIdx < TWI_TX_BUFFER_SIZE) :
    caseSendData L s = some (SET_TWI_TO_START_CONDITION_MODE L s) := by
  simp [caseSendData, h]

theorem overflow_checkAddress (L : IoBits) (s : State)
    (hs : s.USI_TWI_Overflow_State = TWI_SLAVE_CHECK_ADDRESS) :
    USI_OVERFLOW L s =
      if (s.USIDR &&& 0xfe) = s.TWI_slaveAddress then
        if (s.USIDR &&& 0x01) ≠ 0 then
          some (SET_TWI_TO_SEND_ACK L
            { s with USI_TWI_Overflow_State := TWI_SLAVE_SEND_DATA, TWI_txBufIdx := 0 })
        else
          some (SET_TWI_TO_SEND_ACK L
            { s with USI_TWI_Overflow_State := TWI_SLAVE_REQUEST_DATA, TWI_rxBufIdx := 0 })
      else some (SET_TWI_TO_START_CONDITION_MODE L s) := by
  simp only [USI_OVERFLOW, hs, if_true]
  split_ifs <;> rfl

theorem overflow_checkReply (L : IoBits) (s : State)
    (hs : s.USI_TWI_Overflow_State = TWI_SLAVE_CHECK_REPLY_FROM_SEND_DATA) :
    USI_OVERFLOW L s =
      if s.USIDR ≠ 0 then some (SET_TWI_TO_START_CONDITION_MODE L s) else caseSendData L s := by
  simp [USI_OVERFLOW, hs]

theorem overflow_sendData (L : IoBits) (s : State)
    (hs : s.USI_TWI_Overflow_State = TWI_SLAVE_SEND_DATA) :
    USI_OVERFLOW L s = caseSendData L s := by
  simp [USI_OVERFLOW, hs]

theorem overflow_requestReply (L : IoBits) (s : State)
    (hs : s.USI_TWI_Overflow_State = TWI_SLAVE_REQUEST_REPLY_FROM_SEND_DATA) :
    USI_OVERFLOW L s = some (SET_TWI_TO_READ_ACK L
      { s with USI_TWI_Overflow_State := TWI_SLAVE_CHECK_REPLY_FROM_SEND_DATA }) := by
  simp [USI_OVERFLOW, hs]

theorem overflow_requestData (L : IoBits) (s : State)
    (hs : s.USI_TWI_Overflow_State = TWI_SLAVE_REQUEST_DATA) :
    USI_OVERFLOW L s = some (SET_TWI_TO_READ_DATA L
      { s with USI_TWI_Overflow_State := TWI_SLAVE_GET_DATA_AND_SEND_ACK }) := by
  simp [USI_OVERFLOW, hs]

theorem overflow_getData (L : IoBits) (s : State)
    (hs : s.USI_TWI_Overflow_State = TWI_SLAVE_GET_DATA_AND_SEND_ACK) :
    USI_OVERFLOW L s = caseGetData L s := by
  simp [USI_OVERFLOW, hs]

theorem start_eq (L : IoBits) (pins : List Nat) (s : State) (hp : startWait L pins = true) :
    USI_START L pins s = some
      { s with
        DDR_USI := andNot8 s.DDR_USI (1 <<< PORT_TWI_SDA L)
        USICR := usicrActive L
        USISR := ((1 <<< L.USISIF) ||| (1 <<< COUNTER_OVERFLOW_INT_FLAG L) |||
          (1 <<< STOP_CONDITION_INT_FLAG L) ||| (1 <<< DATA_OUTPUT_COLLISION_INT_FLAG L) |||
          (0x0 <<< L.USICNT0)) % 256
        USI_TWI_Overflow_State := TWI_SLAVE_CHECK_ADDRESS } := by
  simp [USI_START, hp]

theorem idle_isIdle (L : IoBits) (hL : L.Valid) (s : State) :
    idleConfig L (SET_TWI_TO_START_CONDITION_MODE L s) :=
  ⟨usicrIdle_USIOIE L hL, usicrIdle_USISIE L hL, testBit_clearSDA L s.DDR_USI⟩

theorem sendAck_isArmed (L : IoBits) (hL : L.Valid) (s : State) :
    ackArmed L (SET_TWI_TO_SEND_ACK L s) :=
  ⟨rfl, testBit_setSDA L hL s.DDR_USI, usisrValue_counter L hL 0xe (by norm_num)⟩


/-! ## Master write: the receive path -/

theorem ddr_set_again (d m : Nat) :
    ((andNot8 ((d ||| m) % 256) m) ||| m) % 256 = (d ||| m) % 256 := by
  apply Nat.eq_of_testBit_eq
  intro i
  simp only [testBit_mod_256, Nat.testBit_or, testBit_andNot8]
  cases decide (i < 8) <;> cases d.testBit i <;> cases m.testBit i <;> rfl

theorem addressPhase_write (L : IoBits) (pins : List Nat) (a : Nat) (s : State)
    (hp : startWait L pins = true) (ha : a &&& 0xfe = s.TWI_slaveAddress)
    (hd : a &&& 0x01 = 0) :
    ∃ t, addressPhase L pins a s = some t ∧ writeReady L t ∧ t.TWI_rxBufIdx = 0 ∧
      t.TWI_RxBuf = s.TWI_RxBuf ∧ t.TWI_TxBuf = s.TWI_TxBuf ∧
      t.TWI_txBufIdx = s.TWI_txBufIdx ∧ t.TWI_slaveAddress = s.TWI_slaveAddress ∧
      t.bNewIncomingFrame = s.bNewIncomingFrame ∧ t.bNewIncomingByte = s.bNewIncomingByte := by
  rw [addressPhase, start_eq L pins s hp, Option.some_bind, overflow_checkAddress _ _ rfl]
  simp only [shiftIn, ha, hd, if_true, ne_eq, not_true_eq_false, if_false]
  exact ⟨_, rfl, ⟨rfl, rfl, rfl, _, rfl⟩, rfl, rfl, rfl, rfl, rfl, rfl, rfl⟩

theorem writeRound_eq (L : IoBits) (s : State) (b : Nat)
    (hs : s.USI_TWI_Overflow_State = TWI_SLAVE_REQUEST_DATA) :
    writeRound L s b = caseGetData L (shiftIn b (SET_TWI_TO_READ_DATA L
      { s with USI_TWI_Overflow_State := TWI_SLAVE_GET_DATA_AND_SEND_ACK })) := by
  rw [writeRound, overflow_requestData L s hs, Option.some_bind, overflow_getData _ _ rfl]

theorem writeRound_store (L : IoBits) (s : State) (b : Nat) (hs : writeReady L s)
    (h : s.TWI_rxBufIdx < TWI_RX_BUFFER_SIZE) :
    ∃ t, writeRound L s b = some t ∧ writeReady L t ∧
      t.TWI_rxBufIdx = s.TWI_rxBufIdx + 1 ∧
      t.TWI_RxBuf = Function.update s.TWI_RxBuf ⟨s.TWI_rxBufIdx, h⟩ b ∧
      t.TWI_TxBuf = s.TWI_TxBuf ∧ t.TWI_txBufIdx = s.TWI_txBufIdx ∧
      t.TWI_slaveAddress = s.TWI_slaveAddress := by
  have h2 : (shiftIn b (SET_TWI_TO_READ_DATA L
      { s with USI_TWI_Overflow_State := TWI_SLAVE_GET_DATA_AND_SEND_ACK })).TWI_rxBufIdx
      < TWI_RX_BUFFER_SIZE := h
  rw [writeRound_eq L s b hs.1, caseGetData_store _ _ h2]
  exact ⟨_, rfl, ⟨rfl, rfl, rfl, _, rfl⟩, rfl, rfl, rfl, rfl, rfl⟩

theorem writeRound_full (L : IoBits) (s : State) (b : Nat) (hs : writeReady L s)
    (h : ¬ s.TWI_rxBufIdx < TWI_RX_BUFFER_SIZE) :
    writeRound L s b = some s := by
  obtain ⟨h1, h2, h3, d, h4⟩ := hs
  have h5 : ¬ (shiftIn b (SET_TWI_TO_READ_DATA L
      { s with USI_TWI_Overflow_State := TWI_SLAVE_GET_DATA_AND_SEND_ACK })).TWI_rxBufIdx
      < TWI_RX_BUFFER_SIZE := h
  rw [writeRound_eq L s b h1, caseGetData_full _ _ h5]
  cases s
  simp only [SET_TWI_TO_SEND_ACK, SET_TWI_TO_READ_DATA, shiftIn] at *
  subst h1 h2 h3 h4
  simp [ddr_set_again]

theorem writeRounds_full (L : IoBits) (bs : List Nat) (s : State) (hs : writeReady L s)
    (h : ¬ s.TWI_rxBufIdx < TWI_RX_BUFFER_SIZE) :
    writeRounds L bs s = some s := by
  induction bs with
  | nil => rfl
  | cons b bs ih => rw [writeRounds, writeRound_full L s b hs h, Option.some_bind, ih]

theorem writeRounds_append (L : IoBits) (xs ys : List Nat) (s : State) :
    writeRounds L (xs ++ ys) s = (writeRounds L xs s).bind (writeRounds L ys) := by
  induction xs generalizing s with
  | nil => rfl
  | cons x xs ih =>
    simp only [List.cons_append, writeRounds]
    cases writeRound L s x with
    | none => rfl
    | some t => simp [ih]

theorem writeRounds_store (L : IoBits) (bs : List Nat) (s : State) (hs : writeReady L s)
    (h : s.TWI_rxBufIdx + bs.length ≤ TWI_RX_BUFFER_SIZE) :
    ∃ t, writeRounds L bs s = some t ∧ writeReady L t ∧
      t.TWI_rxBufIdx = s.TWI_rxBufIdx + bs.length ∧
      (∀ j : Fin TWI_RX_BUFFER_SIZE, t.TWI_RxBuf j =
        if s.TWI_rxBufIdx ≤ j.val then bs.getD (j.val - s.TWI_rxBufIdx) (s.TWI_RxBuf j)
        else s.TWI_RxBuf j) ∧
      t.TWI_TxBuf = s.TWI_TxBuf ∧ t.TWI_txBufIdx = s.TWI_txBufIdx ∧
      t.TWI_slaveAddress = s.TWI_slaveAddress := by
  induction bs generalizing s with
  | nil =>
    refine ⟨s, rfl, hs, rfl, ?_, rfl, rfl, rfl⟩
    intro j
    simp
  | cons b bs ih =>
    have hlen : (b :: bs).length = bs.length + 1 := rfl
    have hlt : s.TWI_rxBufIdx < TWI_RX_BUFFER_SIZE := by omega
    obtain ⟨s1, e1, r1, i1, b1, t1, x1, a1⟩ := writeRound_store L s b hs hlt
    obtain ⟨t, e2, r2, i2, b2, t2, x2, a2⟩ := ih s1 r1 (by omega)
    refine ⟨t, ?_, r2, by omega, ?_, by rw [t2, t1], by rw [x2, x1], by rw [a2, a1]⟩
    · rw [writeRounds, e1, Option.some_bind, e2]
    · intro j
      rw [b2 j, i1, b1]
      by_cases hj : s.TWI_rxBufIdx + 1 ≤ j.val
      · have hne : j ≠ ⟨s.TWI_rxBufIdx, hlt⟩ := by
          intro hh
          rw [hh] at hj
          simp at hj
        have hsub : j.val - s.TWI_rxBufIdx = (j.val - (s.TWI_rxBufIdx + 1)) + 1 := by omega
        have hle : s.TWI_rxBufIdx ≤ j.val := by omega
        rw [if_pos hj, if_pos hle, hsub, List.getD_cons_succ, Function.update_noteq hne]
      · rw [if_neg hj]
        by_cases hle : s.TWI_rxBufIdx ≤ j.val
        · have hje : j = ⟨s.TWI_rxBufIdx, hlt⟩ := Fin.ext (by simp; omega)
          rw [if_pos hle, hje]
          simp
        · have hne : j ≠ ⟨s.TWI_rxBufIdx, hlt⟩ := by
            intro hh
            rw [hh] at hle
            simp at hle
          rw [if_neg hle, Function.update_noteq hne]


theorem writeTransaction_store (L : IoBits) (pins : List Nat) (a : Nat) (bs : List Nat)
    (s : State) (hp : startWait L pins = true) (ha : a &&& 0xfe = s.TWI_slaveAddress)
    (hd : a &&& 0x01 = 0) (hN : bs.length ≤ TWI_RX_BUFFER_SIZE) :
    ∃ t, writeTransaction L pins a bs s = some t ∧ writeReady L t ∧
      t.TWI_rxBufIdx = bs.length ∧
      (∀ j : Fin TWI_RX_BUFFER_SIZE, t.TWI_RxBuf j = bs.getD j.val (s.TWI_RxBuf j)) ∧
      t.TWI_TxBuf = s.TWI_TxBuf ∧ t.TWI_txBufIdx = s.TWI_txBufIdx ∧
      t.TWI_slaveAddress = s.TWI_slaveAddress := by
  obtain ⟨t0, e0, r0, i0, b0, x0, y0, a0, -, -⟩ := addressPhase_write L pins a s hp ha hd
  obtain ⟨t, e1, r1, i1, b1, x1, y1, a1⟩ := writeRounds_store L bs t0 r0 (by omega)
  refine ⟨t, ?_, r1, by omega, ?_, by rw [x1, x0], by rw [y1, y0], by rw [a1, a0]⟩
  · rw [writeTransaction, e0, Option.some_bind, e1]
  · intro j
    rw [b1 j, i0, b0]
    simp

theorem getData_step_store (L : IoBits) (u : State) (b fr fb : Nat)
    (hu : u.USI_TWI_Overflow_State = TWI_SLAVE_REQUEST_DATA)
    (h : u.TWI_rxBufIdx < TWI_RX_BUFFER_SIZE) :
    ∃ u1 v, USI_OVERFLOW L u = some u1 ∧
      USI_OVERFLOW L (shiftIn b (setFlags fr fb u1)) = some v ∧
      u1.bNewIncomingFrame = u.bNewIncomingFrame ∧
      u1.bNewIncomingByte = u.bNewIncomingByte ∧
      v.bNewIncomingByte = 1 ∧
      v.bNewIncomingFrame = (if u.TWI_rxBufIdx = 0 then 1 else fr) ∧
      v.TWI_rxBufIdx = u.TWI_rxBufIdx + 1 ∧ v.TWI_RxBuf ⟨u.TWI_rxBufIdx, h⟩ = b := by
  have e1 := overflow_requestData L u hu
  have e2 := overflow_getData L (shiftIn b (setFlags fr fb (SET_TWI_TO_READ_DATA L
    { u with USI_TWI_Overflow_State := TWI_SLAVE_GET_DATA_AND_SEND_ACK }))) rfl
  have h2 : (shiftIn b (setFlags fr fb (SET_TWI_TO_READ_DATA L
    { u with USI_TWI_Overflow_State := TWI_SLAVE_GET_DATA_AND_SEND_ACK }))).TWI_rxBufIdx
      < TWI_RX_BUFFER_SIZE := h
  rw [caseGetData_store L _ h2] at e2
  refine ⟨_, _, e1, e2, rfl, rfl, rfl, rfl, rfl, ?_⟩
  simp [SET_TWI_TO_SEND_ACK, SET_TWI_TO_READ_DATA, shiftIn, setFlags]

/-- C1: a master write of N ≤ 12 bytes (start condition, matching address byte
with direction bit 0, then per byte one REQUEST_DATA step and one
GET_DATA_AND_SEND_ACK step finding the byte in the data register) ends with
the bytes in `TWI_RxBuf[0..N)` in order and `TWI_rxBufIdx = N`.  The start
condition and the address step leave both flags alone, and so does every
REQUEST_DATA step.  Whatever the two flags hold before the step that stores
byte k, that step leaves the byte-received flag at 1, and it sets the
frame-started flag to 1 for k = 0 and leaves it as it was for every other k. -/
theorem write_within_capacity (L : IoBits) (pins : List Nat) (a : Nat) (bs : List Nat)
    (s : State) (hp : startWait L pins = true) (ha : a &&& 0xfe = s.TWI_slaveAddress)
    (hd : a &&& 0x01 = 0) (hN : bs.length ≤ TWI_RX_BUFFER_SIZE) :
    (∃ t, writeTransaction L pins a bs s = some t ∧
      (∀ (i : Fin TWI_RX_BUFFER_SIZE) (h : i.val < bs.length),
        t.TWI_RxBuf i = bs.get ⟨i.val, h⟩) ∧
      t.TWI_rxBufIdx = bs.length) ∧
    (∃ t0, addressPhase L pins a s = some t0 ∧
      t0.bNewIncomingFrame = s.bNewIncomingFrame ∧
      t0.bNewIncomingByte = s.bNewIncomingByte) ∧
    (∀ (k : Nat) (hk : k < bs.length) (fr fb : Nat), ∃ u u1 v,
      writeTransaction L pins a (bs.take k) s = some u ∧
      USI_OVERFLOW L u = some u1 ∧
      u1.bNewIncomingFrame = u.bNewIncomingFrame ∧
      u1.bNewIncomingByte = u.bNewIncomingByte ∧
      USI_OVERFLOW L (shiftIn (bs.get ⟨k, hk⟩) (setFlags fr fb u1)) = some v ∧
      v.TWI_RxBuf ⟨k, Nat.lt_of_lt_of_le hk hN⟩ = bs.get ⟨k, hk⟩ ∧
      v.bNewIncomingByte = 1 ∧
      v.bNewIncomingFrame = (if k = 0 then 1 else fr)) := by
  refine ⟨?_, ?_, ?_⟩
  · obtain ⟨t, e, -, i, b, -⟩ := writeTransaction_store L pins a bs s hp ha hd hN
    refine ⟨t, e, ?_, i⟩
    intro j hj
    rw [b j, List.getD_eq_getElem _ _ hj]
    rfl
  · obtain ⟨t0, e0, -, -, -, -, -, -, f1, f2⟩ := addressPhase_write L pins a s hp ha hd
    exact ⟨t0, e0, f1, f2⟩
  · intro k hk fr fb
    have hlen : (bs.take k).length = k := by
      rw [List.length_take]
      omega
    obtain ⟨u, e, r, i, -⟩ :=
      writeTransaction_store L pins a (bs.take k) s hp ha hd (by omega)
    have hidx : u.TWI_rxBufIdx = k := by rw [i, hlen]
    have hlt : u.TWI_rxBufIdx < TWI_RX_BUFFER_SIZE := by omega
    obtain ⟨u1, v, e1, e2, c1, c2, f1, f2, -, f4⟩ :=
      getData_step_store L u (bs.get ⟨k, hk⟩) fr fb r.1 hlt
    refine ⟨u, u1, v, e, e1, c1, c2, e2, ?_, f1, ?_⟩
    · have hfin : (⟨k, Nat.lt_of_lt_of_le hk hN⟩ : Fin TWI_RX_BUFFER_SIZE)
          = ⟨u.TWI_rxBufIdx, hlt⟩ := Fin.ext hidx.symm
      rw [hfin]
      exact f4
    · rw [f2, hidx]

/-- C1 at a device with address 0x40 that receives the bytes 1, 2, 3: the index
ends at 3, and the step that stores the first byte sets both flags from 0. -/
theorem write_within_capacity_witness :
    startWait attiny2313 demoPins = true ∧ 0x40 &&& 0xfe = demoState.TWI_slaveAddress ∧
    0x40 &&& 0x01 = 0 ∧ [1, 2, 3].length ≤ TWI_RX_BUFFER_SIZE ∧
    (∃ t, writeTransaction attiny2313 demoPins 0x40 [1, 2, 3] demoState = some t ∧
      t.TWI_rxBufIdx = 3) ∧
    (∃ u u1 v, writeTransaction attiny2313 demoPins 0x40 [] demoState = some u ∧
      USI_OVERFLOW attiny2313 u = some u1 ∧
      USI_OVERFLOW attiny2313 (shiftIn 1 (setFlags 0 0 u1)) = some v ∧
      v.bNewIncomingByte = 1 ∧ v.bNewIncomingFrame = 1) :=
  have h := write_within_capacity attiny2313 demoPins 0x40 [1, 2, 3] demoState
    (by decide) (by decide) (by decide) (by decide)
  ⟨by decide, by decide, by decide, by decide,
    h.1.imp (fun _ ht => ⟨ht.1, ht.2.2⟩),
    (h.2.2 0 (by decide) 0 0).imp (fun _ h1 => h1.imp (fun _ h2 => h2.imp
      (fun _ g => ⟨g.1, g.2.1, g.2.2.2.2.1, g.2.2.2.2.2.2.1, g.2.2.2.2.2.2.2⟩)))⟩


theorem writeTransaction_append (L : IoBits) (pins : List Nat) (a : Nat) (xs ys : List Nat)
    (s : State) :
    writeTransaction L pins a (xs ++ ys) s
      = (writeTransaction L pins a xs s).bind (writeRounds L ys) := by
  unfold writeTransaction
  cases addressPhase L pins a s with
  | none => rfl
  | some t => simp [writeRounds_append]

theorem writeTransaction_take (L : IoBits) (pins : List Nat) (a : Nat) (bs : List Nat)
    (s : State) (hp : startWait L pins = true) (ha : a &&& 0xfe = s.TWI_slaveAddress)
    (hd : a &&& 0x01 = 0) :
    writeTransaction L pins a bs s
      = writeTransaction L pins a (bs.take TWI_RX_BUFFER_SIZE) s := by
  by_cases hlen : bs.length ≤ TWI_RX_BUFFER_SIZE
  · rw [List.take_of_length_le hlen]
  · have hl : (bs.take TWI_RX_BUFFER_SIZE).length = TWI_RX_BUFFER_SIZE := by
      rw [List.length_take]
      omega
    obtain ⟨t, e, r, i, -⟩ := writeTransaction_store L pins a (bs.take TWI_RX_BUFFER_SIZE) s
      hp ha hd (by omega)
    have hfull : ¬ t.TWI_rxBufIdx < TWI_RX_BUFFER_SIZE := by omega
    rw [e]
    conv_lhs => rw [← List.take_append_drop TWI_RX_BUFFER_SIZE bs]
    rw [writeTransaction_append, e, Option.some_bind, writeRounds_full L _ t r hfull]

theorem getData_step_ack (L : IoBits) (hL : L.Valid) (u : State) (b : Nat)
    (hu : u.USI_TWI_Overflow_State = TWI_SLAVE_REQUEST_DATA) :
    ∃ u1 v, USI_OVERFLOW L u = some u1 ∧ USI_OVERFLOW L (shiftIn b u1) = some v ∧
      ackArmed L v ∧ v.USI_TWI_Overflow_State = TWI_SLAVE_REQUEST_DATA ∧
      (¬ u.TWI_rxBufIdx < TWI_RX_BUFFER_SIZE →
        v.TWI_RxBuf = u.TWI_RxBuf ∧ v.TWI_rxBufIdx = u.TWI_rxBufIdx ∧
        v.TWI_TxBuf = u.TWI_TxBuf) := by
  have e1 := overflow_requestData L u hu
  have e2 := overflow_getData L (shiftIn b (SET_TWI_TO_READ_DATA L
    { u with USI_TWI_Overflow_State := TWI_SLAVE_GET_DATA_AND_SEND_ACK })) rfl
  by_cases h : u.TWI_rxBufIdx < TWI_RX_BUFFER_SIZE
  · have h2 : (shiftIn b (SET_TWI_TO_READ_DATA L
        { u with USI_TWI_Overflow_State := TWI_SLAVE_GET_DATA_AND_SEND_ACK })).TWI_rxBufIdx
        < TWI_RX_BUFFER_SIZE := h
    rw [caseGetData_store L _ h2] at e2
    exact ⟨_, _, e1, e2, sendAck_isArmed L hL _, rfl, fun hn => absurd h hn⟩
  · have h2 : ¬ (shiftIn b (SET_TWI_TO_READ_DATA L
        { u with USI_TWI_Overflow_State := TWI_SLAVE_GET_DATA_AND_SEND_ACK })).TWI_rxBufIdx
        < TWI_RX_BUFFER_SIZE := h
    rw [caseGetData_full L _ h2] at e2
    exact ⟨_, _, e1, e2, sendAck_isArmed L hL _, rfl, fun _ => ⟨rfl, rfl, rfl⟩⟩

/-- C3: a master write of N > 12 bytes after a matching write address ends with
the first 12 bytes in `TWI_RxBuf` in order and `TWI_rxBufIdx = 12`; the final
state is the one reached after the first 12 bytes alone, so the bytes from the
13th on are stored nowhere.  Every one of the N GET_DATA_AND_SEND_ACK steps,
storing or discarding, arms the acknowledge (data register 0, SDA an output,
counter set for one bit) and moves to REQUEST_DATA; a discarding step leaves
the receive buffer and its index as they were. -/
theorem write_beyond_capacity (L : IoBits) (hL : L.Valid) (pins : List Nat) (a : Nat)
    (bs : List Nat) (s : State) (hp : startWait L pins = true)
    (ha : a &&& 0xfe = s.TWI_slaveAddress) (hd : a &&& 0x01 = 0)
    (hN : TWI_RX_BUFFER_SIZE < bs.length) :
    (∃ t, writeTransaction L pins a bs s = some t ∧
      (∀ i : Fin TWI_RX_BUFFER_SIZE,
        t.TWI_RxBuf i = bs.get ⟨i.val, Nat.lt_trans i.isLt hN⟩) ∧
      t.TWI_rxBufIdx = TWI_RX_BUFFER_SIZE ∧
      t.TWI_TxBuf = s.TWI_TxBuf ∧
      writeTransaction L pins a (bs.take TWI_RX_BUFFER_SIZE) s = some t) ∧
    (∀ (k : Nat) (hk : k < bs.length), ∃ u u1 v,
      writeTransaction L pins a (bs.take k) s = some u ∧
      USI_OVERFLOW L u = some u1 ∧
      USI_OVERFLOW L (shiftIn (bs.get ⟨k, hk⟩) u1) = some v ∧
      ackArmed L v ∧ v.USI_TWI_Overflow_State = TWI_SLAVE_REQUEST_DATA ∧
      (TWI_RX_BUFFER_SIZE ≤ k →
        v.TWI_RxBuf = u.TWI_RxBuf ∧ v.TWI_rxBufIdx = TWI_RX_BUFFER_SIZE)) := by
  constructor
  · have hl : (bs.take TWI_RX_BUFFER_SIZE).length = TWI_RX_BUFFER_SIZE := by
      rw [List.length_take]
      omega
    obtain ⟨t, e, -, i, b, x, -⟩ := writeTransaction_store L pins a
      (bs.take TWI_RX_BUFFER_SIZE) s hp ha hd (by omega)
    refine ⟨t, ?_, ?_, by omega, x, e⟩
    · rw [writeTransaction_take L pins a bs s hp ha hd, e]
    · intro j
      have hj : j.val < (bs.take TWI_RX_BUFFER_SIZE).length := by
        rw [hl]
        exact j.isLt
      rw [b j, List.getD_eq_getElem _ _ hj, List.getElem_take]
      rfl
  · intro k hk
    have hl : ((bs.take k).take TWI_RX_BUFFER_SIZE).length = min k TWI_RX_BUFFER_SIZE := by
      rw [List.length_take, List.length_take]
      omega
    obtain ⟨u, e, r, i, -⟩ := writeTransaction_store L pins a
      ((bs.take k).take TWI_RX_BUFFER_SIZE) s hp ha hd (by omega)
    rw [← writeTransaction_take L pins a (bs.take k) s hp ha hd] at e
    obtain ⟨u1, v, e1, e2, f1, f2, f3⟩ := getData_step_ack L hL u (bs.get ⟨k, hk⟩) r.1
    refine ⟨u, u1, v, e, e1, e2, f1, f2, ?_⟩
    intro h12
    have hfull : ¬ u.TWI_rxBufIdx < TWI_RX_BUFFER_SIZE := by omega
    obtain ⟨g1, g2, -⟩ := f3 hfull
    exact ⟨g1, by omega⟩


/-! ## Master read: the transmit path -/

theorem andNot8_again (d m : Nat) : andNot8 (andNot8 d m) m = andNot8 d m := by
  apply Nat.eq_of_testBit_eq
  intro i
  simp only [testBit_andNot8]
  cases decide (i < 8) <;> cases d.testBit i <;> cases m.testBit i <;> rfl

theorem addressPhase_read (L : IoBits) (pins : List Nat) (a : Nat) (s : State)
    (hp : startWait L pins = true) (ha : a &&& 0xfe = s.TWI_slaveAddress)
    (hd : a &&& 0x01 ≠ 0) :
    ∃ t, addressPhase L pins a s = some t ∧
      t.USI_TWI_Overflow_State = TWI_SLAVE_SEND_DATA ∧ t.TWI_txBufIdx = 0 ∧
      t.TWI_TxBuf = s.TWI_TxBuf ∧ t.TWI_RxBuf = s.TWI_RxBuf ∧
      t.TWI_rxBufIdx = s.TWI_rxBufIdx := by
  rw [addressPhase, start_eq L pins s hp, Option.some_bind, overflow_checkAddress _ _ rfl]
  simp only [shiftIn, ha, hd, if_true, ne_eq, not_false_eq_true]
  exact ⟨_, rfl, rfl, rfl, rfl, rfl, rfl⟩

theorem sendData_load (L : IoBits) (hL : L.Valid) (s : State)
    (h : s.TWI_txBufIdx < TWI_TX_BUFFER_SIZE) :
    ∃ t, caseSendData L s = some t ∧
      t.USI_TWI_Overflow_State = TWI_SLAVE_REQUEST_REPLY_FROM_SEND_DATA ∧
      t.USIDR = s.TWI_TxBuf ⟨s.TWI_txBufIdx, h⟩ ∧ t.TWI_txBufIdx = s.TWI_txBufIdx + 1 ∧
      t.TWI_TxBuf = s.TWI_TxBuf ∧
      t.DDR_USI.testBit (PORT_TWI_SDA L) = true ∧ counterValue L t = 0 := by
  rw [caseSendData_load L s h]
  exact ⟨_, rfl, rfl, rfl, rfl, rfl, testBit_setSDA L hL _,
    usisrValue_counter L hL 0 (by norm_num)⟩

theorem replyRound_eq (L : IoBits) (x : Nat) (s : State)
    (hs : s.USI_TWI_Overflow_State = TWI_SLAVE_REQUEST_REPLY_FROM_SEND_DATA) :
    replyRound L x s =
      if x ≠ 0 then
        some (SET_TWI_TO_START_CONDITION_MODE L (shiftIn x (SET_TWI_TO_READ_ACK L
          { s with USI_TWI_Overflow_State := TWI_SLAVE_CHECK_REPLY_FROM_SEND_DATA })))
      else
        caseSendData L (shiftIn x (SET_TWI_TO_READ_ACK L
          { s with USI_TWI_Overflow_State := TWI_SLAVE_CHECK_REPLY_FROM_SEND_DATA })) := by
  rw [replyRound, overflow_requestReply L s hs, Option.some_bind, overflow_checkReply _ _ rfl]
  rfl

theorem replyRound_ack_load (L : IoBits) (hL : L.Valid) (s : State)
    (hs : s.USI_TWI_Overflow_State = TWI_SLAVE_REQUEST_REPLY_FROM_SEND_DATA)
    (h : s.TWI_txBufIdx < TWI_TX_BUFFER_SIZE) :
    ∃ t, replyRound L 0 s = some t ∧
      t.USI_TWI_Overflow_State = TWI_SLAVE_REQUEST_REPLY_FROM_SEND_DATA ∧
      t.USIDR = s.TWI_TxBuf ⟨s.TWI_txBufIdx, h⟩ ∧ t.TWI_txBufIdx = s.TWI_txBufIdx + 1 ∧
      t.TWI_TxBuf = s.TWI_TxBuf ∧
      t.DDR_USI.testBit (PORT_TWI_SDA L) = true ∧ counterValue L t = 0 := by
  have h2 : (shiftIn 0 (SET_TWI_TO_READ_ACK L
      { s with USI_TWI_Overflow_State := TWI_SLAVE_CHECK_REPLY_FROM_SEND_DATA })).TWI_txBufIdx
      < TWI_TX_BUFFER_SIZE := h
  rw [replyRound_eq L 0 s hs, if_neg (by simp)]
  exact sendData_load L hL _ h2

theorem replyRound_ack_exhausted (L : IoBits) (s : State)
    (hs : s.USI_TWI_Overflow_State = TWI_SLAVE_REQUEST_REPLY_FROM_SEND_DATA)
    (h : ¬ s.TWI_txBufIdx < TWI_TX_BUFFER_SIZE) :
    ∃ t, replyRound L 0 s = some t ∧ txDone L t ∧ t.USIDR = 0 ∧
      t.TWI_txBufIdx = s.TWI_txBufIdx := by
  have h2 : ¬ (shiftIn 0 (SET_TWI_TO_READ_ACK L
      { s with USI_TWI_Overflow_State := TWI_SLAVE_CHECK_REPLY_FROM_SEND_DATA })).TWI_txBufIdx
      < TWI_TX_BUFFER_SIZE := h
  rw [replyRound_eq L 0 s hs, if_neg (by simp), caseSendData_exhausted L _ h2]
  exact ⟨_, rfl, ⟨rfl, h, rfl, rfl, _, rfl⟩, rfl, rfl⟩

theorem replyRound_nack (L : IoBits) (hL : L.Valid) (x : Nat) (hx : x ≠ 0) (s : State)
    (hs : s.USI_TWI_Overflow_State = TWI_SLAVE_REQUEST_REPLY_FROM_SEND_DATA) :
    ∃ t1 t2, USI_OVERFLOW L s = some t1 ∧ USI_OVERFLOW L (shiftIn x t1) = some t2 ∧
      (t1.TWI_txBufIdx = s.TWI_txBufIdx ∧ t1.USIDR = 0 ∧
        t1.DDR_USI.testBit (PORT_TWI_SDA L) = false ∧ counterValue L t1 = 0xe ∧
        t1.USI_TWI_Overflow_State = TWI_SLAVE_CHECK_REPLY_FROM_SEND_DATA) ∧
      t2.USIDR = x ∧ t2.TWI_txBufIdx = s.TWI_txBufIdx ∧ idleConfig L t2 ∧
      t2.TWI_TxBuf = s.TWI_TxBuf ∧
      t2.USI_TWI_Overflow_State = TWI_SLAVE_CHECK_REPLY_FROM_SEND_DATA := by
  have e1 := overflow_requestReply L s hs
  have e2 := overflow_checkReply L (shiftIn x (SET_TWI_TO_READ_ACK L
      { s with USI_TWI_Overflow_State := TWI_SLAVE_CHECK_REPLY_FROM_SEND_DATA })) rfl
  have hx2 : (shiftIn x (SET_TWI_TO_READ_ACK L
      { s with USI_TWI_Overflow_State := TWI_SLAVE_CHECK_REPLY_FROM_SEND_DATA })).USIDR ≠ 0 := hx
  rw [if_pos hx2] at e2
  exact ⟨_, _, e1, e2,
    ⟨rfl, rfl, testBit_clearSDA L _, usisrValue_counter L hL 0xe (by norm_num), rfl⟩,
    rfl, rfl, idle_isIdle L hL _, rfl, rfl⟩

theorem ackRounds_succ (L : IoBits) (n : Nat) (s : State) :
    ackRounds L (n + 1) s = (ackRounds L n s).bind (replyRound L 0) := by
  induction n generalizing s with
  | zero => simp [ackRounds]
  | succ n ih =>
    show (replyRound L 0 s).bind (ackRounds L (n + 1))
      = ((replyRound L 0 s).bind (ackRounds L n)).bind (replyRound L 0)
    cases replyRound L 0 s with
    | none => rfl
    | some t =>
      simp only [Option.some_bind]
      exact ih t

theorem readTransaction_succ (L : IoBits) (pins : List Nat) (a n : Nat) (s : State) :
    readTransaction L pins a (n + 1) s
      = (readTransaction L pins a n s).bind (replyRound L 0) := by
  unfold readTransaction
  cases (addressPhase L pins a s).bind (USI_OVERFLOW L) with
  | none => rfl
  | some t => rw [Option.some_bind, Option.some_bind, ackRounds_succ]

theorem readTransaction_load (L : IoBits) (hL : L.Valid) (pins : List Nat) (a : Nat)
    (s : State) (hp : startWait L pins = true) (ha : a &&& 0xfe = s.TWI_slaveAddress)
    (hd : a &&& 0x01 ≠ 0) (j : Nat) (hj : j < TWI_TX_BUFFER_SIZE) :
    ∃ t, readTransaction L pins a j s = some t ∧
      t.USI_TWI_Overflow_State = TWI_SLAVE_REQUEST_REPLY_FROM_SEND_DATA ∧
      t.USIDR = s.TWI_TxBuf ⟨j, hj⟩ ∧ t.TWI_txBufIdx = j + 1 ∧
      t.TWI_TxBuf = s.TWI_TxBuf ∧
      t.DDR_USI.testBit (PORT_TWI_SDA L) = true ∧ counterValue L t = 0 := by
  induction j with
  | zero =>
    obtain ⟨t0, e0, s0, i0, b0, -⟩ := addressPhase_read L pins a s hp ha hd
    have h0 : t0.TWI_txBufIdx < TWI_TX_BUFFER_SIZE := by omega
    obtain ⟨t, e, f1, f2, f3, f4, f5, f6⟩ := sendData_load L hL t0 h0
    refine ⟨t, ?_, f1, ?_, by omega, by rw [f4, b0], f5, f6⟩
    · rw [readTransaction, e0, Option.some_bind, overflow_sendData L t0 s0, e]
      rfl
    · rw [f2]
      have hfin : (⟨t0.TWI_txBufIdx, h0⟩ : Fin TWI_TX_BUFFER_SIZE) = ⟨0, hj⟩ := Fin.ext i0
      rw [hfin, b0]
  | succ j ih =>
    obtain ⟨u, e, g1, -, g3, g4, -⟩ := ih (by omega)
    have h0 : u.TWI_txBufIdx < TWI_TX_BUFFER_SIZE := by omega
    obtain ⟨t, e2, f1, f2, f3, f4, f5, f6⟩ := replyRound_ack_load L hL u g1 h0
    refine ⟨t, ?_, f1, ?_, by omega, by rw [f4, g4], f5, f6⟩
    · rw [readTransaction_succ, e, Option.some_bind, e2]
    · rw [f2]
      have hfin : (⟨u.TWI_txBufIdx, h0⟩ : Fin TWI_TX_BUFFER_SIZE) = ⟨j + 1, hj⟩ := Fin.ext g3
      rw [hfin, g4]

theorem readTransaction_exhausted (L : IoBits) (hL : L.Valid) (pins : List Nat) (a : Nat)
    (s : State) (hp : startWait L pins = true) (ha : a &&& 0xfe = s.TWI_slaveAddress)
    (hd : a &&& 0x01 ≠ 0) :
    ∃ t, readTransaction L pins a TWI_TX_BUFFER_SIZE s = some t ∧ txDone L t ∧
      t.USIDR = 0 ∧ t.TWI_txBufIdx = TWI_TX_BUFFER_SIZE := by
  have h20 : TWI_TX_BUFFER_SIZE = 20 := rfl
  obtain ⟨u, e, g1, -, g3, -⟩ := readTransaction_load L hL pins a s hp ha hd 19 (by norm_num)
  have h0 : ¬ u.TWI_txBufIdx < TWI_TX_BUFFER_SIZE := by omega
  obtain ⟨t, e2, f1, f2, f3⟩ := replyRound_ack_exhausted L u g1 h0
  refine ⟨t, ?_, f1, f2, by omega⟩
  show readTransaction L pins a (19 + 1) s = some t
  rw [readTransaction_succ, e, Option.some_bind, e2]

theorem txDone_idle (L : IoBits) (hL : L.Valid) (s : State) (h : txDone L s) :
    idleConfig L s := by
  obtain ⟨-, -, h3, -, d, h5⟩ := h
  refine ⟨?_, ?_, ?_⟩
  · rw [h3]
    exact usicrIdle_USIOIE L hL
  · rw [h3]
    exact usicrIdle_USISIE L hL
  · rw [h5]
    exact testBit_clearSDA L d

theorem txDone_step (L : IoBits) (x : Nat) (s : State) (h : txDone L s) :
    USI_OVERFLOW L (shiftIn x s) = some (shiftIn x s) ∧ txDone L (shiftIn x s) := by
  obtain ⟨h1, h2, h3, h4, d, h5⟩ := h
  have hd : txDone L (shiftIn x s) := ⟨h1, h2, h3, h4, d, h5⟩
  refine ⟨?_, hd⟩
  have hfix : SET_TWI_TO_START_CONDITION_MODE L (shiftIn x s) = shiftIn x s := by
    cases s
    simp only [SET_TWI_TO_START_CONDITION_MODE, shiftIn] at *
    subst h3 h4 h5
    simp [andNot8_again]
  have h2x : ¬ (shiftIn x s).TWI_txBufIdx < TWI_TX_BUFFER_SIZE := h2
  rw [overflow_checkReply L (shiftIn x s) h1, caseSendData_exhausted L _ h2x, hfix]
  simp

theorem txDone_steps (L : IoBits) (hL : L.Valid) (xs : List Nat) (s : State)
    (h : txDone L s) :
    ∃ t, overflowSteps L xs s = some t ∧ t.TWI_txBufIdx = s.TWI_txBufIdx ∧
      idleConfig L t ∧ t.TWI_TxBuf = s.TWI_TxBuf ∧ t.USIDR = xs.getLastD s.USIDR := by
  induction xs generalizing s with
  | nil => exact ⟨s, rfl, rfl, txDone_idle L hL s h, rfl, rfl⟩
  | cons x xs ih =>
    obtain ⟨e, hd⟩ := txDone_step L x s h
    obtain ⟨t, e2, f1, f2, f3, f4⟩ := ih (shiftIn x s) hd
    refine ⟨t, ?_, f1, f2, f3, ?_⟩
    · rw [overflowSteps, e, Option.some_bind, e2]
    · rw [f4]
      cases xs <;> rfl


/-! ## Address check -/

theorem ackArmed_not_idle (L : IoBits) (t : State) (h : ackArmed L t) : ¬ idleConfig L t := by
  intro hi
  have h1 := h.2.1
  rw [hi.2.2] at h1
  exact Bool.false_ne_true h1

theorem checkAddress_accepts_iff (L : IoBits) (hL : L.Valid) (s : State)
    (hs : s.USI_TWI_Overflow_State = TWI_SLAVE_CHECK_ADDRESS) :
    (accepts L s ↔ s.USIDR &&& 0xfe = s.TWI_slaveAddress) ∧
    (rejects L s ↔ s.USIDR &&& 0xfe ≠ s.TWI_slaveAddress) := by
  unfold accepts rejects
  rw [overflow_checkAddress L s hs]
  by_cases hm : s.USIDR &&& 0xfe = s.TWI_slaveAddress
  · have hacc : ∃ t, (if s.USIDR &&& 0x01 ≠ 0 then
          some (SET_TWI_TO_SEND_ACK L
            { s with USI_TWI_Overflow_State := TWI_SLAVE_SEND_DATA, TWI_txBufIdx := 0 })
        else
          some (SET_TWI_TO_SEND_ACK L
            { s with USI_TWI_Overflow_State := TWI_SLAVE_REQUEST_DATA, TWI_rxBufIdx := 0 }))
        = some t ∧ ackArmed L t := by
      by_cases hd : s.USIDR &&& 0x01 ≠ 0
      · rw [if_pos hd]
        exact ⟨_, rfl, sendAck_isArmed L hL _⟩
      · rw [if_neg hd]
        exact ⟨_, rfl, sendAck_isArmed L hL _⟩
    rw [if_pos hm]
    refine ⟨⟨fun _ => hm, fun _ => hacc⟩, ⟨?_, fun h => absurd hm h⟩⟩
    rintro ⟨t, e, hi, -⟩
    obtain ⟨t2, e2, ha⟩ := hacc
    rw [e] at e2
    cases e2
    exact absurd hi (ackArmed_not_idle L t ha)
  · rw [if_neg hm]
    refine ⟨⟨?_, fun h => absurd h hm⟩, ⟨fun _ => hm, fun _ => ⟨_, rfl, idle_isIdle L hL s, rfl⟩⟩⟩
    rintro ⟨t, e, ha⟩
    cases e
    exact absurd (idle_isIdle L hL s) (ackArmed_not_idle L _ ha)

theorem xor_one_and_fe (b : Nat) : (b ^^^ 1) &&& 0xfe = b &&& 0xfe := by
  apply Nat.eq_of_testBit_eq
  intro i
  rw [Nat.testBit_and, Nat.testBit_and, Nat.testBit_xor]
  cases i with
  | zero => simp
  | succ i =>
    have h1 : Nat.testBit 1 (i + 1) = false := by
      rw [Nat.testBit_succ]
      simp
    rw [h1]
    simp

/-- C5: when the upper seven bits of the byte in the data register differ from
the configured address, the CHECK_ADDRESS step sends no acknowledge (SDA is an
input, the data register keeps its contents, the acknowledge is not armed, the
overflow interrupt is disabled) and leaves `TWI_RxBuf`, `TWI_TxBuf`,
`TWI_rxBufIdx` and `TWI_txBufIdx` unchanged. -/
theorem address_mismatch_no_ack (L : IoBits) (hL : L.Valid) (s : State)
    (hs : s.USI_TWI_Overflow_State = TWI_SLAVE_CHECK_ADDRESS)
    (hm : s.USIDR &&& 0xfe ≠ s.TWI_slaveAddress) :
    ∃ t, USI_OVERFLOW L s = some t ∧
      t.DDR_USI.testBit (PORT_TWI_SDA L) = false ∧ t.USIDR = s.USIDR ∧ ¬ ackArmed L t ∧
      t.USICR.testBit L.USIOIE = false ∧
      t.TWI_RxBuf = s.TWI_RxBuf ∧ t.TWI_TxBuf = s.TWI_TxBuf ∧
      t.TWI_rxBufIdx = s.TWI_rxBufIdx ∧ t.TWI_txBufIdx = s.TWI_txBufIdx := by
  have hi := idle_isIdle L hL s
  refine ⟨SET_TWI_TO_START_CONDITION_MODE L s, ?_, hi.2.2, rfl, ?_, hi.1, rfl, rfl, rfl, rfl⟩
  · rw [overflow_checkAddress L s hs, if_neg hm]
  · exact fun ha => ackArmed_not_idle L _ ha hi

/-- C5 at a device with address 0x40 that finds the address byte 0x62. -/
theorem address_mismatch_no_ack_witness :
    (shiftIn 0x62 { demoState with USI_TWI_Overflow_State := TWI_SLAVE_CHECK_ADDRESS }).USIDR
      &&& 0xfe ≠ 0x40 ∧
    ∃ t, USI_OVERFLOW attiny2313
        (shiftIn 0x62 { demoState with USI_TWI_Overflow_State := TWI_SLAVE_CHECK_ADDRESS })
        = some t ∧ t.USIDR = 0x62 ∧ t.TWI_rxBufIdx = 0 ∧ t.TWI_txBufIdx = 0 :=
  ⟨by decide,
    (address_mismatch_no_ack attiny2313 attiny2313_valid
      (shiftIn 0x62 { demoState with USI_TWI_Overflow_State := TWI_SLAVE_CHECK_ADDRESS })
      rfl (by decide)).imp
      (fun _ h => ⟨h.1, h.2.2.1, h.2.2.2.2.2.2.2.1, h.2.2.2.2.2.2.2.2⟩)⟩

/-- C9: the CHECK_ADDRESS step accepts the byte `b` it finds in the data
register exactly when `b AND 0xFE` equals `TWI_slaveAddress`, and rejects it
otherwise; `b` and `b XOR 1` are accepted together or rejected together; on a
match the low bit of `b` only selects the direction: set, the step moves to
SEND_DATA with the Tx index cleared; clear, to REQUEST_DATA with the Rx index
cleared. -/
theorem address_uses_upper_seven_bits (L : IoBits) (hL : L.Valid) (s : State)
    (hs : s.USI_TWI_Overflow_State = TWI_SLAVE_CHECK_ADDRESS) (b : Nat) :
    (accepts L (shiftIn b s) ↔ b &&& 0xfe = s.TWI_slaveAddress) ∧
    (rejects L (shiftIn b s) ↔ b &&& 0xfe ≠ s.TWI_slaveAddress) ∧
    (accepts L (shiftIn b s) ↔ accepts L (shiftIn (b ^^^ 1) s)) ∧
    (rejects L (shiftIn b s) ↔ rejects L (shiftIn (b ^^^ 1) s)) ∧
    (b &&& 0xfe = s.TWI_slaveAddress → ∃ t, USI_OVERFLOW L (shiftIn b s) = some t ∧
      (b &&& 0x01 ≠ 0 → t.USI_TWI_Overflow_State = TWI_SLAVE_SEND_DATA ∧
        t.TWI_txBufIdx = 0 ∧ t.TWI_rxBufIdx = s.TWI_rxBufIdx) ∧
      (b &&& 0x01 = 0 → t.USI_TWI_Overflow_State = TWI_SLAVE_REQUEST_DATA ∧
        t.TWI_rxBufIdx = 0 ∧ t.TWI_txBufIdx = s.TWI_txBufIdx)) := by
  have h1 := checkAddress_accepts_iff L hL (shiftIn b s) hs
  have h2 := checkAddress_accepts_iff L hL (shiftIn (b ^^^ 1) s) hs
  have hx : (shiftIn (b ^^^ 1) s).USIDR &&& 0xfe = (shiftIn b s).USIDR &&& 0xfe :=
    xor_one_and_fe b
  rw [hx] at h2
  refine ⟨h1.1, h1.2, h1.1.trans h2.1.symm, h1.2.trans h2.2.symm, ?_⟩
  intro hm
  have hm2 : (shiftIn b s).USIDR &&& 0xfe = (shiftIn b s).TWI_slaveAddress := hm
  rw [overflow_checkAddress L (shiftIn b s) hs, if_pos hm2]
  by_cases hd : (shiftIn b s).USIDR &&& 0x01 ≠ 0
  · rw [if_pos hd]
    exact ⟨_, rfl, fun _ => ⟨rfl, rfl, rfl⟩, fun h0 => absurd h0 hd⟩
  · rw [if_neg hd]
    exact ⟨_, rfl, fun h0 => absurd h0 hd, fun _ => ⟨rfl, rfl, rfl⟩⟩

/-- C9 at a device with address 0x40: the address bytes 0x40 and 0x41 are both
accepted. -/
theorem address_uses_upper_seven_bits_witness :
    accepts attiny2313
      (shiftIn 0x40 { demoState with USI_TWI_Overflow_State := TWI_SLAVE_CHECK_ADDRESS }) ∧
    accepts attiny2313
      (shiftIn (0x40 ^^^ 1)
        { demoState with USI_TWI_Overflow_State := TWI_SLAVE_CHECK_ADDRESS }) :=
  have h := address_uses_upper_seven_bits attiny2313 attiny2313_valid
    { demoState with USI_TWI_Overflow_State := TWI_SLAVE_CHECK_ADDRESS } rfl 0x40
  ⟨h.1.mpr (by decide), h.2.2.1.mp (h.1.mpr (by decide))⟩


/-! ## Start condition, anomalies, flags -/

/-- C7: whatever the prior state, the start-condition interrupt (once its
busy-wait is left) sets the overflow state to CHECK_ADDRESS, enables both the
start-condition and the overflow interrupt, makes SDA an input and leaves both
buffers, both indices, both flags and the address unchanged; the following
overflow step accepts the byte `b` it finds exactly when `b AND 0xFE` equals
the configured address and rejects it otherwise, so its decision depends on
nothing else of the prior state. -/
theorem repeated_start (L : IoBits) (hL : L.Valid) (pins : List Nat)
    (hp : startWait L pins = true) (s : State) (b : Nat) :
    ∃ t, USI_START L pins s = some t ∧
      t.USI_TWI_Overflow_State = TWI_SLAVE_CHECK_ADDRESS ∧
      t.USICR.testBit L.USISIE = true ∧ t.USICR.testBit L.USIOIE = true ∧
      t.DDR_USI.testBit (PORT_TWI_SDA L) = false ∧
      t.TWI_RxBuf = s.TWI_RxBuf ∧ t.TWI_TxBuf = s.TWI_TxBuf ∧
      t.TWI_rxBufIdx = s.TWI_rxBufIdx ∧ t.TWI_txBufIdx = s.TWI_txBufIdx ∧
      t.bNewIncomingFrame = s.bNewIncomingFrame ∧
      t.bNewIncomingByte = s.bNewIncomingByte ∧
      t.TWI_slaveAddress = s.TWI_slaveAddress ∧
      (accepts L (shiftIn b t) ↔ b &&& 0xfe = s.TWI_slaveAddress) ∧
      (rejects L (shiftIn b t) ↔ b &&& 0xfe ≠ s.TWI_slaveAddress) := by
  refine ⟨_, start_eq L pins s hp, rfl, usicrActive_USISIE L hL, usicrActive_USIOIE L hL,
    testBit_clearSDA L s.DDR_USI, rfl, rfl, rfl, rfl, rfl, rfl, rfl, ?_⟩
  exact checkAddress_accepts_iff L hL (shiftIn b _) rfl

/-- C7 at a start condition that interrupts a master write with a full receive
buffer. -/
theorem repeated_start_witness :
    startWait attiny2313 demoPins = true ∧
    ∃ t, USI_START attiny2313 demoPins rxFullState = some t ∧
      t.USI_TWI_Overflow_State = TWI_SLAVE_CHECK_ADDRESS ∧ t.TWI_rxBufIdx = 12 :=
  ⟨by decide,
    (repeated_start attiny2313 attiny2313_valid demoPins (by decide) rxFullState 0x40).imp
      (fun _ h => ⟨h.1, h.2.1, h.2.2.2.2.2.2.2.1⟩)⟩

/-- C6, as the code has it, found false at a full receive buffer: the
GET_DATA_AND_SEND_ACK step at Rx index 12 does not force idle; it returns with
the overflow interrupt still enabled and SDA driven as an output, in state
REQUEST_DATA. -/
theorem rx_exhaustion_not_idle :
    (USI_OVERFLOW attiny2313 rxFullState).map
      (fun t => (t.USICR.testBit attiny2313.USIOIE,
        t.DDR_USI.testBit (PORT_TWI_SDA attiny2313), t.USI_TWI_Overflow_State))
      = some (true, true, TWI_SLAVE_REQUEST_DATA) := by
  decide

/-- C6, amended: an address mismatch at CHECK_ADDRESS, a NACK at the reply
check and an exhausted transmit buffer at SEND_DATA each end the overflow step
in the idle configuration (overflow interrupt disabled, start-condition
interrupt enabled, SDA an input); an exhausted receive buffer at
GET_DATA_AND_SEND_ACK does not: that step discards the byte (the receive
buffer and its index stay as they were), arms the acknowledge and moves to
REQUEST_DATA. -/
theorem anomalies_force_idle (L : IoBits) (hL : L.Valid) :
    (∀ s : State, s.USI_TWI_Overflow_State = TWI_SLAVE_CHECK_ADDRESS →
      s.USIDR &&& 0xfe ≠ s.TWI_slaveAddress →
      ∃ t, USI_OVERFLOW L s = some t ∧ idleConfig L t) ∧
    (∀ s : State, s.USI_TWI_Overflow_State = TWI_SLAVE_CHECK_REPLY_FROM_SEND_DATA →
      s.USIDR ≠ 0 →
      ∃ t, USI_OVERFLOW L s = some t ∧ idleConfig L t) ∧
    (∀ s : State, s.USI_TWI_Overflow_State = TWI_SLAVE_SEND_DATA →
      TWI_TX_BUFFER_SIZE ≤ s.TWI_txBufIdx →
      ∃ t, USI_OVERFLOW L s = some t ∧ idleConfig L t) ∧
    (∀ s : State, s.USI_TWI_Overflow_State = TWI_SLAVE_GET_DATA_AND_SEND_ACK →
      TWI_RX_BUFFER_SIZE ≤ s.TWI_rxBufIdx →
      ∃ t, USI_OVERFLOW L s = some t ∧ ¬ idleConfig L t ∧ ackArmed L t ∧
        t.USI_TWI_Overflow_State = TWI_SLAVE_REQUEST_DATA ∧
        t.TWI_RxBuf = s.TWI_RxBuf ∧ t.TWI_rxBufIdx = s.TWI_rxBufIdx ∧
        t.TWI_TxBuf = s.TWI_TxBuf) := by
  refine ⟨?_, ?_, ?_, ?_⟩
  · intro s hs hm
    exact ⟨_, by rw [overflow_checkAddress L s hs, if_neg hm], idle_isIdle L hL s⟩
  · intro s hs hx
    exact ⟨_, by rw [overflow_checkReply L s hs, if_pos hx], idle_isIdle L hL s⟩
  · intro s hs hx
    have h : ¬ s.TWI_txBufIdx < TWI_TX_BUFFER_SIZE := by omega
    exact ⟨_, by rw [overflow_sendData L s hs, caseSendData_exhausted L s h],
      idle_isIdle L hL s⟩
  · intro s hs hx
    have h : ¬ s.TWI_rxBufIdx < TWI_RX_BUFFER_SIZE := by omega
    have ha := sendAck_isArmed L hL { s with USI_TWI_Overflow_State := TWI_SLAVE_REQUEST_DATA }
    exact ⟨_, by rw [overflow_getData L s hs, caseGetData_full L s h],
      ackArmed_not_idle L _ ha, ha, rfl, rfl, rfl, rfl⟩

/-- C6, amended, at the ATtiny2313: a mismatching address byte 0x62, a NACK
0x01 and a Tx index of 20 each force idle, and the step at a full receive
buffer arms the acknowledge. -/
theorem anomalies_force_idle_witness :
    (∃ t, USI_OVERFLOW attiny2313 (shiftIn 0x62
        { demoState with USI_TWI_Overflow_State := TWI_SLAVE_CHECK_ADDRESS })
        = some t ∧ idleConfig attiny2313 t) ∧
    (∃ t, USI_OVERFLOW attiny2313 (shiftIn 0x01
        { demoState with USI_TWI_Overflow_State := TWI_SLAVE_CHECK_REPLY_FROM_SEND_DATA })
        = some t ∧ idleConfig attiny2313 t) ∧
    (∃ t, USI_OVERFLOW attiny2313
        { demoState with TWI_txBufIdx := 20, USI_TWI_Overflow_State := TWI_SLAVE_SEND_DATA }
        = some t ∧ idleConfig attiny2313 t) ∧
    (∃ t, USI_OVERFLOW attiny2313 rxFullState = some t ∧ ackArmed attiny2313 t) :=
  have h := anomalies_force_idle attiny2313 attiny2313_valid
  ⟨h.1 _ rfl (by decide), h.2.1 _ rfl (by decide), h.2.2.1 _ rfl (by decide),
    (h.2.2.2 rxFullState rfl (by decide)).imp (fun _ ht => ⟨ht.1, ht.2.2.1⟩)⟩

/-- C10, as the code has it, found false at a full receive buffer: the
GET_DATA_AND_SEND_ACK step at Rx index 12, entered with the byte-received flag
cleared, ends with `bNewIncomingByte` still 0. -/
theorem byte_flag_not_set_when_discarded :
    (USI_OVERFLOW attiny2313 rxFullState).map (fun t => t.bNewIncomingByte) = some 0 := by
  decide

/-- C10, amended: a GET_DATA_AND_SEND_ACK step that stores the byte (Rx index
below 12) ends with `bNewIncomingByte` equal to 1; a step that discards the
byte (Rx index 12 or more) leaves `bNewIncomingByte` as it was. -/
theorem byte_flag_set_when_stored (L : IoBits) (s : State)
    (hs : s.USI_TWI_Overflow_State = TWI_SLAVE_GET_DATA_AND_SEND_ACK) :
    ∃ t, USI_OVERFLOW L s = some t ∧
      (s.TWI_rxBufIdx < TWI_RX_BUFFER_SIZE → t.bNewIncomingByte = 1) ∧
      (TWI_RX_BUFFER_SIZE ≤ s.TWI_rxBufIdx → t.bNewIncomingByte = s.bNewIncomingByte) := by
  rw [overflow_getData L s hs]
  by_cases h : s.TWI_rxBufIdx < TWI_RX_BUFFER_SIZE
  · rw [caseGetData_store L s h]
    exact ⟨_, rfl, fun _ => rfl, fun h2 => absurd h (by omega)⟩
  · rw [caseGetData_full L s h]
    exact ⟨_, rfl, fun h2 => absurd h2 h, fun _ => rfl⟩

/-- C10, amended, at a device that stores its first data byte, and at one
whose receive buffer is full. -/
theorem byte_flag_set_when_stored_witness :
    (∃ t, USI_OVERFLOW attiny2313 (shiftIn 0x55
        { demoState with USI_TWI_Overflow_State := TWI_SLAVE_GET_DATA_AND_SEND_ACK })
        = some t ∧ t.bNewIncomingByte = 1) ∧
    (∃ t, USI_OVERFLOW attiny2313 rxFullState = some t ∧ t.bNewIncomingByte = 0) :=
  ⟨(byte_flag_set_when_stored attiny2313 (shiftIn 0x55
      { demoState with USI_TWI_Overflow_State := TWI_SLAVE_GET_DATA_AND_SEND_ACK }) rfl).imp
      (fun _ ht => ⟨ht.1, ht.2.1 (by decide)⟩),
    (byte_flag_set_when_stored attiny2313 rxFullState rfl).imp
      (fun _ ht => ⟨ht.1, ht.2.2 (by decide)⟩)⟩


/-! ## Read transactions -/

/-- C2, as the code has it, found false at K = 1: once the master has
acknowledged the one byte, the reply check has loaded a second byte,
`TWI_TxBuf[1]` (here 0xA1), and `TWI_txBufIdx` is 2. -/
theorem read_one_acked_loads_two :
    (readTransaction attiny2313 demoPins 0x41 1 demoState).map
      (fun t => (t.TWI_txBufIdx, t.USIDR, t.USI_TWI_Overflow_State))
      = some (2, 0xA1, TWI_SLAVE_REQUEST_REPLY_FROM_SEND_DATA) := by
  decide

/-- C2, amended: in a master read (start condition, matching address byte with
direction bit 1) with 1 ≤ K ≤ 20, for every j < K the step that follows j
acknowledges loads `TWI_TxBuf[j]` into the data register for transmission (SDA
an output, counter set for eight bits) and leaves `TWI_txBufIdx = j + 1`; so
the first K bytes loaded are `TWI_TxBuf[0..K)` in order and the index is K once
the K-th is loaded.  When the master acknowledges the K-th byte too, the reply
check loads `TWI_TxBuf[K]` and leaves the index at K + 1 if K < 20; if K = 20
it loads nothing, leaves the index at 20 and forces idle. -/
theorem read_all_acked (L : IoBits) (hL : L.Valid) (pins : List Nat) (a : Nat) (s : State)
    (hp : startWait L pins = true) (ha : a &&& 0xfe = s.TWI_slaveAddress)
    (hd : a &&& 0x01 ≠ 0) (K : Nat) (hK1 : 1 ≤ K) (hK : K ≤ TWI_TX_BUFFER_SIZE) :
    (∀ (j : Nat) (hj : j < K), ∃ t, readTransaction L pins a j s = some t ∧
      t.USIDR = s.TWI_TxBuf ⟨j, Nat.lt_of_lt_of_le hj hK⟩ ∧ t.TWI_txBufIdx = j + 1 ∧
      t.USI_TWI_Overflow_State = TWI_SLAVE_REQUEST_REPLY_FROM_SEND_DATA ∧
      t.DDR_USI.testBit (PORT_TWI_SDA L) = true ∧ counterValue L t = 0) ∧
    (∃ t, readTransaction L pins a (K - 1) s = some t ∧ t.TWI_txBufIdx = K) ∧
    (∃ t, readTransaction L pins a K s = some t ∧
      if h : K < TWI_TX_BUFFER_SIZE then
        t.USIDR = s.TWI_TxBuf ⟨K, h⟩ ∧ t.TWI_txBufIdx = K + 1
      else
        t.USIDR = 0 ∧ t.TWI_txBufIdx = TWI_TX_BUFFER_SIZE ∧ idleConfig L t) := by
  refine ⟨?_, ?_, ?_⟩
  · intro j hj
    obtain ⟨t, e, f1, f2, f3, -, f5, f6⟩ :=
      readTransaction_load L hL pins a s hp ha hd j (Nat.lt_of_lt_of_le hj hK)
    exact ⟨t, e, f2, f3, f1, f5, f6⟩
  · obtain ⟨t, e, -, -, f3, -⟩ :=
      readTransaction_load L hL pins a s hp ha hd (K - 1) (by omega)
    exact ⟨t, e, by omega⟩
  · by_cases h : K < TWI_TX_BUFFER_SIZE
    · obtain ⟨t, e, -, f2, f3, -⟩ := readTransaction_load L hL pins a s hp ha hd K h
      exact ⟨t, e, by rw [dif_pos h]; exact ⟨f2, f3⟩⟩
    · have hK20 : K = TWI_TX_BUFFER_SIZE := by omega
      obtain ⟨t, e, f1, f2, f3⟩ := readTransaction_exhausted L hL pins a s hp ha hd
      rw [hK20]
      exact ⟨t, e, by rw [dif_neg (by omega)]; exact ⟨f2, f3, txDone_idle L hL t f1⟩⟩

/-- C2, amended, at a device with address 0x40 read with K = 3: the third byte
loaded is `TWI_TxBuf[2]` with the index at 3, and a third acknowledge loads
`TWI_TxBuf[3]`. -/
theorem read_all_acked_witness :
    startWait attiny2313 demoPins = true ∧ 0x41 &&& 0xfe = demoState.TWI_slaveAddress ∧
    0x41 &&& 0x01 ≠ 0 ∧ 1 ≤ 3 ∧ 3 ≤ TWI_TX_BUFFER_SIZE ∧
    (∃ t, readTransaction attiny2313 demoPins 0x41 2 demoState = some t ∧
      t.USIDR = demoState.TWI_TxBuf 2 ∧ t.TWI_txBufIdx = 3) ∧
    (∃ t, readTransaction attiny2313 demoPins 0x41 3 demoState = some t ∧
      t.USIDR = demoState.TWI_TxBuf 3 ∧ t.TWI_txBufIdx = 4) :=
  have h := read_all_acked attiny2313 attiny2313_valid demoPins 0x41 demoState
    (by decide) (by decide) (by decide) 3 (by decide) (by decide)
  ⟨by decide, by decide, by decide, by decide, by decide,
    (h.1 2 (by decide)).imp (fun _ ht => ⟨ht.1, ht.2.1, ht.2.2.1⟩),
    h.2.2.imp (fun _ ht => ⟨ht.1, by simpa using ht.2⟩)⟩

/-- C4: in a master read with M < 20 in which the master acknowledges the bytes
0..M-1 and answers byte M with a NACK (a non-zero value `x` in the data
register at the reply check that follows byte M), the bytes loaded for
transmission are `TWI_TxBuf[0..M]`, one per acknowledge and in order: the step
that follows j acknowledges puts `TWI_TxBuf[j]` into the data register, makes
SDA an output, sets the counter for eight bits, moves to
REQUEST_REPLY_FROM_SEND_DATA and leaves the index at j + 1.  The step that
arms the sampling of the reply to byte M loads nothing (it clears the data
register, makes SDA an input and sets the counter for one bit), and the reply
check that finds `x` loads nothing either: the index stays at M + 1, the data
register keeps the sampled `x`, the transmit buffer is as it was, and the
peripheral is put into the idle configuration (overflow interrupt disabled,
start-condition interrupt enabled, SDA an input). -/
theorem read_ended_by_nack (L : IoBits) (hL : L.Valid) (pins : List Nat) (a : Nat)
    (s : State) (hp : startWait L pins = true) (ha : a &&& 0xfe = s.TWI_slaveAddress)
    (hd : a &&& 0x01 ≠ 0) (M : Nat) (hM : M < TWI_TX_BUFFER_SIZE) (x : Nat) (hx : x ≠ 0) :
    (∀ (j : Nat) (hj : j ≤ M), ∃ t, readTransaction L pins a j s = some t ∧
      t.USIDR = s.TWI_TxBuf ⟨j, Nat.lt_of_le_of_lt hj hM⟩ ∧ t.TWI_txBufIdx = j + 1 ∧
      t.USI_TWI_Overflow_State = TWI_SLAVE_REQUEST_REPLY_FROM_SEND_DATA ∧
      t.DDR_USI.testBit (PORT_TWI_SDA L) = true ∧ counterValue L t = 0 ∧
      t.TWI_TxBuf = s.TWI_TxBuf) ∧
    (∃ t t1 t2, readTransaction L pins a M s = some t ∧
      USI_OVERFLOW L t = some t1 ∧ USI_OVERFLOW L (shiftIn x t1) = some t2 ∧
      t.TWI_txBufIdx = M + 1 ∧
      (t1.TWI_txBufIdx = M + 1 ∧ t1.USIDR = 0 ∧
        t1.DDR_USI.testBit (PORT_TWI_SDA L) = false ∧ counterValue L t1 = 0xe ∧
        t1.USI_TWI_Overflow_State = TWI_SLAVE_CHECK_REPLY_FROM_SEND_DATA) ∧
      t2.TWI_txBufIdx = M + 1 ∧ t2.USIDR = x ∧ idleConfig L t2 ∧
      t2.TWI_TxBuf = s.TWI_TxBuf ∧
      t2.USI_TWI_Overflow_State = TWI_SLAVE_CHECK_REPLY_FROM_SEND_DATA) := by
  constructor
  · intro j hj
    obtain ⟨t, e, f1, f2, f3, f4, f5, f6⟩ :=
      readTransaction_load L hL pins a s hp ha hd j (Nat.lt_of_le_of_lt hj hM)
    exact ⟨t, e, f2, f3, f1, f5, f6, f4⟩
  · obtain ⟨t, e, f1, -, f3, f4, -⟩ := readTransaction_load L hL pins a s hp ha hd M hM
    obtain ⟨t1, t2, e1, e2, ⟨g1, g1b, g1c, g1d, g1e⟩, g2, g3, g4, g5, g6⟩ :=
      replyRound_nack L hL x hx t f1
    exact ⟨t, t1, t2, e, e1, e2, f3, ⟨by omega, g1b, g1c, g1d, g1e⟩, by omega, g2, g4,
      by rw [g5, f4], g6⟩

/-- C4 at a device with address 0x40 whose master answers the third byte with a
NACK: the third byte loaded is `TWI_TxBuf[2]`, armed for transmission, and the
reply check leaves the index at 3 and the peripheral idle. -/
theorem read_ended_by_nack_witness :
    startWait attiny2313 demoPins = true ∧ 0x41 &&& 0xfe = demoState.TWI_slaveAddress ∧
    0x41 &&& 0x01 ≠ 0 ∧ 2 < TWI_TX_BUFFER_SIZE ∧ 1 ≠ 0 ∧
    (∃ t, readTransaction attiny2313 demoPins 0x41 2 demoState = some t ∧
      t.USIDR = demoState.TWI_TxBuf 2 ∧
      t.DDR_USI.testBit (PORT_TWI_SDA attiny2313) = true ∧
      counterValue attiny2313 t = 0) ∧
    (∃ t t1 t2, readTransaction attiny2313 demoPins 0x41 2 demoState = some t ∧
      USI_OVERFLOW attiny2313 t = some t1 ∧
      USI_OVERFLOW attiny2313 (shiftIn 1 t1) = some t2 ∧
      t2.TWI_txBufIdx = 3 ∧ t2.USIDR = 1 ∧ idleConfig attiny2313 t2) :=
  have h := read_ended_by_nack attiny2313 attiny2313_valid demoPins 0x41 demoState
    (by decide) (by decide) (by decide) 2 (by decide) 1 (by decide)
  ⟨by decide, by decide, by decide, by decide, by decide,
    (h.1 2 (by decide)).imp (fun _ g => ⟨g.1, g.2.1, g.2.2.2.2.1, g.2.2.2.2.2.1⟩),
    h.2.imp (fun _ h1 => h1.imp (fun _ h2 => h2.imp
      (fun _ g => ⟨g.1, g.2.1, g.2.2.1, g.2.2.2.2.2.1, g.2.2.2.2.2.2.1,
        g.2.2.2.2.2.2.2.1⟩)))⟩

/-- C8: with `TWI_txBufIdx` at 20 or more, an overflow step in SEND_DATA, or in
the reply check with an acknowledge sampled, loads nothing into the data
register, leaves `TWI_txBufIdx` unchanged and puts the peripheral into the idle
configuration (overflow interrupt disabled, start-condition interrupt enabled,
SDA an input).  In particular a master read in which 20 bytes were sent and
acknowledged ends idle with the index at 20, and whatever overflow steps might
follow, the index stays at 20, the peripheral stays idle and the data register
holds only what was last shifted in. -/
theorem tx_exhaustion (L : IoBits) (hL : L.Valid) :
    (∀ s : State, TWI_TX_BUFFER_SIZE ≤ s.TWI_txBufIdx →
      (s.USI_TWI_Overflow_State = TWI_SLAVE_SEND_DATA ∨
        (s.USI_TWI_Overflow_State = TWI_SLAVE_CHECK_REPLY_FROM_SEND_DATA ∧ s.USIDR = 0)) →
      ∃ t, USI_OVERFLOW L s = some t ∧ t.USIDR = s.USIDR ∧
        t.TWI_txBufIdx = s.TWI_txBufIdx ∧ idleConfig L t) ∧
    (∀ (pins : List Nat) (a : Nat) (s : State), startWait L pins = true →
      a &&& 0xfe = s.TWI_slaveAddress → a &&& 0x01 ≠ 0 →
      ∃ t, readTransaction L pins a TWI_TX_BUFFER_SIZE s = some t ∧
        t.TWI_txBufIdx = TWI_TX_BUFFER_SIZE ∧ t.USIDR = 0 ∧ idleConfig L t ∧
        ∀ xs : List Nat, ∃ u, overflowSteps L xs t = some u ∧
          u.TWI_txBufIdx = TWI_TX_BUFFER_SIZE ∧ idleConfig L u ∧
          u.USIDR = xs.getLastD t.USIDR) := by
  constructor
  · intro s hidx hst
    have h : ¬ s.TWI_txBufIdx < TWI_TX_BUFFER_SIZE := by omega
    have hres : USI_OVERFLOW L s = some (SET_TWI_TO_START_CONDITION_MODE L s) := by
      rcases hst with hs | ⟨hs, h0⟩
      · rw [overflow_sendData L s hs, caseSendData_exhausted L s h]
      · rw [overflow_checkReply L s hs, if_neg (by simp [h0]), caseSendData_exhausted L s h]
    exact ⟨_, hres, rfl, rfl, idle_isIdle L hL s⟩
  · intro pins a s hp ha hd
    obtain ⟨t, e, f1, f2, f3⟩ := readTransaction_exhausted L hL pins a s hp ha hd
    refine ⟨t, e, f3, f2, txDone_idle L hL t f1, ?_⟩
    intro xs
    obtain ⟨u, e2, g1, g2, -, g4⟩ := txDone_steps L hL xs t f1
    exact ⟨u, e2, by omega, g2, g4⟩

/-- C8 at the ATtiny2313: a SEND_DATA step with the Tx index at 20 loads nothing
and forces idle, and a read of the device at 0x40 in which 20 bytes were
acknowledged ends idle with the index at 20. -/
theorem tx_exhaustion_witness :
    (∃ t, USI_OVERFLOW attiny2313
        { demoState with TWI_txBufIdx := 20, USI_TWI_Overflow_State := TWI_SLAVE_SEND_DATA }
        = some t ∧ t.TWI_txBufIdx = 20 ∧ idleConfig attiny2313 t) ∧
    (∃ t, readTransaction attiny2313 demoPins 0x41 TWI_TX_BUFFER_SIZE demoState = some t ∧
      t.TWI_txBufIdx = TWI_TX_BUFFER_SIZE ∧ idleConfig attiny2313 t) :=
  have h := tx_exhaustion attiny2313 attiny2313_valid
  ⟨(h.1 { demoState with TWI_txBufIdx := 20, USI_TWI_Overflow_State := TWI_SLAVE_SEND_DATA }
      (by decide) (Or.inl rfl)).imp (fun _ g => ⟨g.1, g.2.2.1, g.2.2.2⟩),
    (h.2 demoPins 0x41 demoState (by decide) (by decide) (by decide)).imp
      (fun _ g => ⟨g.1, g.2.1, g.2.2.2.1⟩)⟩

/-- C3 at a device with address 0x40 that receives 13 bytes: the index ends at
12, and the step that discards the thirteenth byte arms the acknowledge. -/
theorem write_beyond_capacity_witness :
    startWait attiny2313 demoPins = true ∧ 0x40 &&& 0xfe = demoState.TWI_slaveAddress ∧
    0x40 &&& 0x01 = 0 ∧
    TWI_RX_BUFFER_SIZE < [1, 2, 3, 4, 5, 6, 7, 8, 9, 10, 11, 12, 13].length ∧
    (∃ t, writeTransaction attiny2313 demoPins 0x40
        [1, 2, 3, 4, 5, 6, 7, 8, 9, 10, 11, 12, 13] demoState = some t ∧
      t.TWI_rxBufIdx = TWI_RX_BUFFER_SIZE) ∧
    (∃ u u1 v, writeTransaction attiny2313 demoPins 0x40
        [1, 2, 3, 4, 5, 6, 7, 8, 9, 10, 11, 12] demoState = some u ∧
      USI_OVERFLOW attiny2313 u = some u1 ∧
      USI_OVERFLOW attiny2313 (shiftIn 13 u1) = some v ∧
      ackArmed attiny2313 v ∧ v.TWI_rxBufIdx = TWI_RX_BUFFER_SIZE) :=
  have h := write_beyond_capacity attiny2313 attiny2313_valid demoPins 0x40
    [1, 2, 3, 4, 5, 6, 7, 8, 9, 10, 11, 12, 13] demoState
    (by decide) (by decide) (by decide) (by decide)
  ⟨by decide, by decide, by decide, by decide,
    h.1.imp (fun _ ht => ⟨ht.1, ht.2.2.1⟩),
    (h.2 12 (by decide)).imp (fun _ h1 => h1.imp (fun _ h2 => h2.imp
      (fun _ g => ⟨g.1, g.2.1, g.2.2.1, g.2.2.2.1, (g.2.2.2.2.2 (by decide)).2⟩)))⟩

/-! ## Every overflow step, case by case -/

theorem overflow_cases (L : IoBits) (s : State) :
    ∃ t, USI_OVERFLOW L s = some t ∧
      (t = SET_TWI_TO_SEND_ACK L
          { s with USI_TWI_Overflow_State := TWI_SLAVE_SEND_DATA, TWI_txBufIdx := 0 } ∨
       t = SET_TWI_TO_SEND_ACK L
          { s with USI_TWI_Overflow_State := TWI_SLAVE_REQUEST_DATA, TWI_rxBufIdx := 0 } ∨
       t = SET_TWI_TO_START_CONDITION_MODE L s ∨
       (∃ h : s.TWI_txBufIdx < TWI_TX_BUFFER_SIZE, t = SET_TWI_TO_SEND_DATA L
          { s with
            USIDR := s.TWI_TxBuf ⟨s.TWI_txBufIdx, h⟩
            TWI_txBufIdx := s.TWI_txBufIdx + 1
            USI_TWI_Overflow_State := TWI_SLAVE_REQUEST_REPLY_FROM_SEND_DATA }) ∨
       t = SET_TWI_TO_READ_ACK L
          { s with USI_TWI_Overflow_State := TWI_SLAVE_CHECK_REPLY_FROM_SEND_DATA } ∨
       t = SET_TWI_TO_READ_DATA L
          { s with USI_TWI_Overflow_State := TWI_SLAVE_GET_DATA_AND_SEND_ACK } ∨
       (s.USI_TWI_Overflow_State = TWI_SLAVE_GET_DATA_AND_SEND_ACK ∧
        ∃ h : s.TWI_rxBufIdx < TWI_RX_BUFFER_SIZE, t = SET_TWI_TO_SEND_ACK L
          { s with
            TWI_RxBuf := Function.update s.TWI_RxBuf ⟨s.TWI_rxBufIdx, h⟩ s.USIDR
            TWI_rxBufIdx := s.TWI_rxBufIdx + 1
            bNewIncomingFrame := if s.TWI_rxBufIdx = 0 then 1 else s.bNewIncomingFrame
            bNewIncomingByte := 1
            USI_TWI_Overflow_State := TWI_SLAVE_REQUEST_DATA }) ∨
       t = SET_TWI_TO_SEND_ACK L { s with USI_TWI_Overflow_State := TWI_SLAVE_REQUEST_DATA } ∨
       t = s) := by
  have hsend : ∃ t, caseSendData L s = some t ∧
      (t = SET_TWI_TO_START_CONDITION_MODE L s ∨
       ∃ h : s.TWI_txBufIdx < TWI_TX_BUFFER_SIZE, t = SET_TWI_TO_SEND_DATA L
          { s with
            USIDR := s.TWI_TxBuf ⟨s.TWI_txBufIdx, h⟩
            TWI_txBufIdx := s.TWI_txBufIdx + 1
            USI_TWI_Overflow_State := TWI_SLAVE_REQUEST_REPLY_FROM_SEND_DATA }) := by
    by_cases h : s.TWI_txBufIdx < TWI_TX_BUFFER_SIZE
    · exact ⟨_, caseSendData_load L s h, Or.inr ⟨h, rfl⟩⟩
    · exact ⟨_, caseSendData_exhausted L s h, Or.inl rfl⟩
  by_cases h1 : s.USI_TWI_Overflow_State = TWI_SLAVE_CHECK_ADDRESS
  · rw [overflow_checkAddress L s h1]
    by_cases hm : s.USIDR &&& 0xfe = s.TWI_slaveAddress
    · rw [if_pos hm]
      by_cases hd : s.USIDR &&& 0x01 ≠ 0
      · rw [if_pos hd]
        exact ⟨_, rfl, Or.inl rfl⟩
      · rw [if_neg hd]
        exact ⟨_, rfl, Or.inr (Or.inl rfl)⟩
    · rw [if_neg hm]
      exact ⟨_, rfl, Or.inr (Or.inr (Or.inl rfl))⟩
  by_cases h4 : s.USI_TWI_Overflow_State = TWI_SLAVE_CHECK_REPLY_FROM_SEND_DATA
  · rw [overflow_checkReply L s h4]
    by_cases hx : s.USIDR ≠ 0
    · rw [if_pos hx]
      exact ⟨_, rfl, Or.inr (Or.inr (Or.inl rfl))⟩
    · rw [if_neg hx]
      obtain ⟨t, e, ht⟩ := hsend
      rcases ht with ht | ht
      · exact ⟨t, e, Or.inr (Or.inr (Or.inl ht))⟩
      · exact ⟨t, e, Or.inr (Or.inr (Or.inr (Or.inl ht)))⟩
  by_cases h2 : s.USI_TWI_Overflow_State = TWI_SLAVE_SEND_DATA
  · rw [overflow_sendData L s h2]
    obtain ⟨t, e, ht⟩ := hsend
    rcases ht with ht | ht
    · exact ⟨t, e, Or.inr (Or.inr (Or.inl ht))⟩
    · exact ⟨t, e, Or.inr (Or.inr (Or.inr (Or.inl ht)))⟩
  by_cases h3 : s.USI_TWI_Overflow_State = TWI_SLAVE_REQUEST_REPLY_FROM_SEND_DATA
  · exact ⟨_, overflow_requestReply L s h3,
      Or.inr (Or.inr (Or.inr (Or.inr (Or.inl rfl))))⟩
  by_cases h5 : s.USI_TWI_Overflow_State = TWI_SLAVE_REQUEST_DATA
  · exact ⟨_, overflow_requestData L s h5,
      Or.inr (Or.inr (Or.inr (Or.inr (Or.inr (Or.inl rfl)))))⟩
  by_cases h6 : s.USI_TWI_Overflow_State = TWI_SLAVE_GET_DATA_AND_SEND_ACK
  · rw [overflow_getData L s h6]
    by_cases h : s.TWI_rxBufIdx < TWI_RX_BUFFER_SIZE
    · exact ⟨_, caseGetData_store L s h,
        Or.inr (Or.inr (Or.inr (Or.inr (Or.inr (Or.inr (Or.inl ⟨h6, h, rfl⟩))))))⟩
    · exact ⟨_, caseGetData_full L s h,
        Or.inr (Or.inr (Or.inr (Or.inr (Or.inr (Or.inr (Or.inr (Or.inl rfl)))))))⟩
  · refine ⟨s, ?_, Or.inr (Or.inr (Or.inr (Or.inr (Or.inr (Or.inr (Or.inr (Or.inr rfl)))))))⟩
    simp [USI_OVERFLOW, h1, h2, h3, h4, h5, h6]

theorem start_some (L : IoBits) (pins : List Nat) (s t : State)
    (h : USI_START L pins s = some t) :
    t.TWI_RxBuf = s.TWI_RxBuf ∧ t.TWI_TxBuf = s.TWI_TxBuf ∧
    t.TWI_rxBufIdx = s.TWI_rxBufIdx ∧ t.TWI_txBufIdx = s.TWI_txBufIdx ∧
    t.bNewIncomingFrame = s.bNewIncomingFrame ∧ t.bNewIncomingByte = s.bNewIncomingByte ∧
    t.TWI_slaveAddress = s.TWI_slaveAddress := by
  by_cases hp : startWait L pins = true
  · rw [start_eq L pins s hp] at h
    cases h
    exact ⟨rfl, rfl, rfl, rfl, rfl, rfl, rfl⟩
  · simp [USI_START, hp] at h

/-! ## Flags, indices, buffers: what every routine preserves -/

theorem overflow_frame (L : IoBits) (s : State) :
    ∃ t, USI_OVERFLOW L s = some t ∧
      flagsKept s t ∧ (cursorsInRange s → cursorsInRange t) ∧
      t.TWI_TxBuf = s.TWI_TxBuf ∧ t.TWI_slaveAddress = s.TWI_slaveAddress ∧
      (∀ j : Fin TWI_RX_BUFFER_SIZE, j.val ≠ s.TWI_rxBufIdx →
        t.TWI_RxBuf j = s.TWI_RxBuf j) ∧
      (s.USI_TWI_Overflow_State ≠ TWI_SLAVE_GET_DATA_AND_SEND_ACK →
        t.TWI_RxBuf = s.TWI_RxBuf) := by
  have h12 : TWI_RX_BUFFER_SIZE = 12 := rfl
  have h20 : TWI_TX_BUFFER_SIZE = 20 := rfl
  obtain ⟨t, e, ht⟩ := overflow_cases L s
  refine ⟨t, e, ?_⟩
  rcases ht with ht | ht | ht | ⟨h, ht⟩ | ht | ht | ⟨h6, h, ht⟩ | ht | ht
  · subst ht
    exact ⟨⟨id, id⟩, fun hc => ⟨hc.1, Nat.zero_le _⟩, rfl, rfl, fun _ _ => rfl, fun _ => rfl⟩
  · subst ht
    exact ⟨⟨id, id⟩, fun hc => ⟨Nat.zero_le _, hc.2⟩, rfl, rfl, fun _ _ => rfl, fun _ => rfl⟩
  · subst ht
    exact ⟨⟨id, id⟩, id, rfl, rfl, fun _ _ => rfl, fun _ => rfl⟩
  · subst ht
    refine ⟨⟨id, id⟩, fun hc => ⟨hc.1, ?_⟩, rfl, rfl, fun _ _ => rfl, fun _ => rfl⟩
    show s.TWI_txBufIdx + 1 ≤ TWI_TX_BUFFER_SIZE
    omega
  · subst ht
    exact ⟨⟨id, id⟩, id, rfl, rfl, fun _ _ => rfl, fun _ => rfl⟩
  · subst ht
    exact ⟨⟨id, id⟩, id, rfl, rfl, fun _ _ => rfl, fun _ => rfl⟩
  · subst ht
    refine ⟨⟨?_, ?_⟩, fun hc => ⟨?_, hc.2⟩, rfl, rfl, ?_, fun hn => absurd h6 hn⟩
    · intro hf
      show (if s.TWI_rxBufIdx = 0 then 1 else s.bNewIncomingFrame) ≠ 0
      split_ifs
      · exact Nat.one_ne_zero
      · exact hf
    · intro _
      exact Nat.one_ne_zero
    · show s.TWI_rxBufIdx + 1 ≤ TWI_RX_BUFFER_SIZE
      omega
    · intro j hj
      have hne : j ≠ ⟨s.TWI_rxBufIdx, h⟩ := fun hh => hj (congrArg Fin.val hh)
      exact Function.update_noteq hne _ _
  · subst ht
    exact ⟨⟨id, id⟩, id, rfl, rfl, fun _ _ => rfl, fun _ => rfl⟩
  · subst ht
    exact ⟨⟨id, id⟩, id, rfl, rfl, fun _ _ => rfl, fun _ => rfl⟩

/-- C11: a notification flag that is non-zero before a core routine runs is
non-zero afterwards: this holds for the start-condition interrupt (which
returns once its busy-wait is left), for every overflow step, whatever the
state and the data register hold, and for the initialisation routine. -/
theorem flags_set_only (L : IoBits) (pins : List Nat) (hp : startWait L pins = true)
    (s : State) :
    (∃ t, USI_START L pins s = some t ∧ flagsKept s t) ∧
    (∃ t, USI_OVERFLOW L s = some t ∧ flagsKept s t) ∧
    flagsKept s (USI_TWI_Slave_Initialize L s) := by
  refine ⟨⟨_, start_eq L pins s hp, id, id⟩, ?_, id, id⟩
  obtain ⟨t, e, hf, -⟩ := overflow_frame L s
  exact ⟨t, e, hf⟩

/-- C11 at a device with a full receive buffer and both flags set: the flags
are still set after an overflow step, which discards the byte, and after a
start condition. -/
theorem flags_set_only_witness :
    startWait attiny2313 demoPins = true ∧
    (∃ t, USI_START attiny2313 demoPins (setFlags 1 1 rxFullState) = some t ∧
      t.bNewIncomingFrame ≠ 0 ∧ t.bNewIncomingByte ≠ 0) ∧
    (∃ t, USI_OVERFLOW attiny2313 (setFlags 1 1 rxFullState) = some t ∧
      t.bNewIncomingFrame ≠ 0 ∧ t.bNewIncomingByte ≠ 0) :=
  have h := flags_set_only attiny2313 demoPins (by decide) (setFlags 1 1 rxFullState)
  ⟨by decide,
    h.1.imp (fun _ g => ⟨g.1, g.2.1 (by decide), g.2.2 (by decide)⟩),
    h.2.1.imp (fun _ g => ⟨g.1, g.2.1 (by decide), g.2.2 (by decide)⟩)⟩

theorem runEvents_cursors (L : IoBits) (es : List BusEvent) (s t : State)
    (h : cursorsInRange s) (e : runEvents L es s = some t) : cursorsInRange t := by
  induction es generalizing s with
  | nil =>
    simp only [runEvents, Option.some.injEq] at e
    rw [← e]
    exact h
  | cons ev es ih =>
    cases ev with
    | start pins =>
      rw [runEvents] at e
      cases hs : USI_START L pins s with
      | none => rw [hs] at e; cases e
      | some u =>
        rw [hs, Option.some_bind] at e
        obtain ⟨-, -, i1, i2, -⟩ := start_some L pins s u hs
        exact ih u ⟨by rw [i1]; exact h.1, by rw [i2]; exact h.2⟩ e
    | overflow x =>
      rw [runEvents] at e
      obtain ⟨u, eu, -, hc, -⟩ := overflow_frame L (shiftIn x s)
      rw [eu, Option.some_bind] at e
      exact ih u (hc h) e

/-- C12: from a state with `TWI_rxBufIdx ≤ 12` and `TWI_txBufIdx ≤ 20` the
start-condition interrupt (which returns once its busy-wait is left) and every
overflow step, whatever the overflow state and the data register hold, reach a
state with `TWI_rxBufIdx ≤ 12` and `TWI_txBufIdx ≤ 20`; hence so does every
sequence of start conditions and overflows. -/
theorem cursor_range_invariant (L : IoBits) (pins : List Nat)
    (hp : startWait L pins = true) (s : State) (h : cursorsInRange s) :
    (∃ t, USI_START L pins s = some t ∧ cursorsInRange t) ∧
    (∃ t, USI_OVERFLOW L s = some t ∧ cursorsInRange t) ∧
    (∀ (es : List BusEvent) (t : State), runEvents L es s = some t → cursorsInRange t) := by
  refine ⟨⟨_, start_eq L pins s hp, h⟩, ?_, fun es t e => runEvents_cursors L es s t h e⟩
  obtain ⟨t, e, -, hc, -⟩ := overflow_frame L s
  exact ⟨t, e, hc h⟩

/-- C12 at a device with a full receive buffer: after a start condition, the
address byte 0x40 and two more overflows the indices are still in range. -/
theorem cursor_range_invariant_witness :
    startWait attiny2313 demoPins = true ∧ cursorsInRange rxFullState ∧
    (∃ t, USI_OVERFLOW attiny2313 rxFullState = some t ∧ cursorsInRange t) ∧
    (∃ t, runEvents attiny2313
        [BusEvent.start demoPins, BusEvent.overflow 0x40, BusEvent.overflow 0,
          BusEvent.overflow 0x55] rxFullState = some t ∧ cursorsInRange t) :=
  have hr : cursorsInRange rxFullState := ⟨by decide, by decide⟩
  have h := cursor_range_invariant attiny2313 demoPins (by decide) rxFullState hr
  have hx : ∃ t, runEvents attiny2313
      [BusEvent.start demoPins, BusEvent.overflow 0x40, BusEvent.overflow 0,
        BusEvent.overflow 0x55] rxFullState = some t :=
    Option.isSome_iff_exists.mp (by decide)
  ⟨by decide, hr, h.2.1, hx.elim (fun t e => ⟨t, e, h.2.2 _ t e⟩)⟩

/-- C17: the start-condition interrupt and every overflow step leave all of
`TWI_TxBuf` and `TWI_slaveAddress` unchanged; an overflow step leaves every
element of `TWI_RxBuf` unchanged except possibly the one at the value
`TWI_rxBufIdx` has before the step, and leaves all of `TWI_RxBuf` unchanged
unless the overflow state is GET_DATA_AND_SEND_ACK; the start-condition
interrupt leaves `TWI_RxBuf` unchanged too. -/
theorem core_frame (L : IoBits) (pins : List Nat) (hp : startWait L pins = true)
    (s : State) :
    (∃ t, USI_START L pins s = some t ∧ t.TWI_TxBuf = s.TWI_TxBuf ∧
      t.TWI_slaveAddress = s.TWI_slaveAddress ∧ t.TWI_RxBuf = s.TWI_RxBuf) ∧
    (∃ t, USI_OVERFLOW L s = some t ∧ t.TWI_TxBuf = s.TWI_TxBuf ∧
      t.TWI_slaveAddress = s.TWI_slaveAddress ∧
      (∀ j : Fin TWI_RX_BUFFER_SIZE, j.val ≠ s.TWI_rxBufIdx →
        t.TWI_RxBuf j = s.TWI_RxBuf j) ∧
      (s.USI_TWI_Overflow_State ≠ TWI_SLAVE_GET_DATA_AND_SEND_ACK →
        t.TWI_RxBuf = s.TWI_RxBuf)) := by
  refine ⟨⟨_, start_eq L pins s hp, rfl, rfl, rfl⟩, ?_⟩
  obtain ⟨t, e, -, -, f1, f2, f3, f4⟩ := overflow_frame L s
  exact ⟨t, e, f1, f2, f3, f4⟩

/-- C17 at a device that loads its first byte to transmit: the transmit buffer,
the address and the receive buffer are as before. -/
theorem core_frame_witness :
    startWait attiny2313 demoPins = true ∧
    (∃ t, USI_OVERFLOW attiny2313
        { demoState with USI_TWI_Overflow_State := TWI_SLAVE_SEND_DATA } = some t ∧
      t.TWI_TxBuf = demoState.TWI_TxBuf ∧ t.TWI_slaveAddress = 0x40 ∧
      t.TWI_RxBuf = demoState.TWI_RxBuf) :=
  have h := core_frame attiny2313 demoPins (by decide)
    { demoState with USI_TWI_Overflow_State := TWI_SLAVE_SEND_DATA }
  ⟨by decide, h.2.imp (fun _ g => ⟨g.1, g.2.1, g.2.2.1, g.2.2.2.2 (by decide)⟩)⟩

/-- C18: every array access of an overflow step is in bounds.  The embedded
indexing (`readBuf`, `writeBuf`) gives `none` exactly for an index outside the
array, and the step gives `none` only when an access does; for every state,
with `TWI_rxBufIdx`, `TWI_txBufIdx` and the overflow state at any value, the
step and its two indexing cases give a state: `TWI_TxBuf` is read only below
20 and `TWI_RxBuf` written only below 12. -/
theorem overflow_in_bounds (L : IoBits) (s : State) :
    (USI_OVERFLOW L s).isSome = true ∧
    (caseSendData L s).isSome = true ∧ (caseGetData L s).isSome = true ∧
    (∀ i : Nat, (readBuf s.TWI_TxBuf i).isSome = decide (i < TWI_TX_BUFFER_SIZE)) ∧
    (∀ i v : Nat, (writeBuf s.TWI_RxBuf i v).isSome = decide (i < TWI_RX_BUFFER_SIZE)) := by
  refine ⟨?_, ?_, ?_, ?_, ?_⟩
  · obtain ⟨t, e, -⟩ := overflow_cases L s
    rw [e]
    rfl
  · by_cases h : s.TWI_txBufIdx < TWI_TX_BUFFER_SIZE
    · rw [caseSendData_load L s h]
      rfl
    · rw [caseSendData_exhausted L s h]
      rfl
  · by_cases h : s.TWI_rxBufIdx < TWI_RX_BUFFER_SIZE
    · rw [caseGetData_store L s h]
      rfl
    · rw [caseGetData_full L s h]
      rfl
  · intro i
    by_cases h : i < TWI_TX_BUFFER_SIZE <;> simp [readBuf, h]
  · intro i v
    by_cases h : i < TWI_RX_BUFFER_SIZE <;> simp [writeBuf, h]

/-! ## Initialisation, address match, reply check -/

theorem port_set_again (p a b : Nat) :
    ((((p ||| a) % 256 ||| b) % 256 ||| a) % 256 ||| b) % 256
      = ((p ||| a) % 256 ||| b) % 256 := by
  apply Nat.eq_of_testBit_eq
  intro i
  simp only [testBit_mod_256, Nat.testBit_or]
  cases decide (i < 8) <;> cases p.testBit i <;> cases a.testBit i <;>
    cases b.testBit i <;> rfl

theorem ddr_init_again (d a b : Nat) :
    andNot8 ((andNot8 ((d ||| a) % 256) b ||| a) % 256) b
      = andNot8 ((d ||| a) % 256) b := by
  apply Nat.eq_of_testBit_eq
  intro i
  simp only [testBit_andNot8, testBit_mod_256, Nat.testBit_or]
  cases decide (i < 8) <;> cases d.testBit i <;> cases a.testBit i <;>
    cases b.testBit i <;> rfl

theorem valid_pins (L : IoBits) (hL : L.Valid) :
    L.PORTB5 < 8 ∧ L.PORTB7 < 8 ∧ L.PORTB5 ≠ L.PORTB7 := by
  simp only [IoBits.Valid] at hL
  exact hL.2.2.2.2

/-- C13: running `USI_TWI_Slave_Initialize` twice gives the state that running
it once gives, from every starting state; after it the SCL and SDA bits of the
port are high, SDA is an input, the start-condition interrupt is enabled and
the overflow interrupt is disabled. -/
theorem initialize_idempotent (L : IoBits) (hL : L.Valid) (s : State) :
    USI_TWI_Slave_Initialize L (USI_TWI_Slave_Initialize L s)
      = USI_TWI_Slave_Initialize L s ∧
    (USI_TWI_Slave_Initialize L s).PORT_USI.testBit (PORT_TWI_SCL L) = true ∧
    (USI_TWI_Slave_Initialize L s).PORT_USI.testBit (PORT_TWI_SDA L) = true ∧
    (USI_TWI_Slave_Initialize L s).DDR_USI.testBit (PORT_TWI_SDA L) = false ∧
    (USI_TWI_Slave_Initialize L s).USICR.testBit L.USISIE = true ∧
    (USI_TWI_Slave_Initialize L s).USICR.testBit L.USIOIE = false := by
  obtain ⟨h5, h7, hne⟩ := valid_pins L hL
  refine ⟨?_, ?_, ?_, testBit_clearSDA L _, usicrIdle_USISIE L hL, usicrIdle_USIOIE L hL⟩
  · simp only [USI_TWI_Slave_Initialize, port_set_again, ddr_init_again]
  · show (((s.PORT_USI ||| (1 <<< L.PORTB7)) % 256 ||| (1 <<< L.PORTB5)) % 256).testBit
      L.PORTB7 = true
    simp only [testBit_mod_256, Nat.testBit_or, testBit_one_shiftLeft]
    simp [h7]
  · show (((s.PORT_USI ||| (1 <<< L.PORTB7)) % 256 ||| (1 <<< L.PORTB5)) % 256).testBit
      L.PORTB5 = true
    simp only [testBit_mod_256, Nat.testBit_or, testBit_one_shiftLeft]
    simp [h5]

/-- C13 at the ATtiny2313, from a state in the middle of a transaction. -/
theorem initialize_idempotent_witness :
    USI_TWI_Slave_Initialize attiny2313 (USI_TWI_Slave_Initialize attiny2313 rxFullState)
      = USI_TWI_Slave_Initialize attiny2313 rxFullState ∧
    (USI_TWI_Slave_Initialize attiny2313 rxFullState).USICR.testBit attiny2313.USIOIE
      = false :=
  have h := initialize_idempotent attiny2313 attiny2313_valid rxFullState
  ⟨h.1, h.2.2.2.2.2⟩

/-- C14: when the upper seven bits of the byte in the data register equal the
configured address, the CHECK_ADDRESS step arms the acknowledge (data register
0, SDA an output, counter set for one bit); with the direction bit 0 it sets
`TWI_rxBufIdx` to 0, moves to REQUEST_DATA and leaves `TWI_txBufIdx` unchanged;
with the direction bit 1 it sets `TWI_txBufIdx` to 0, moves to SEND_DATA and
leaves `TWI_rxBufIdx` unchanged; both buffers and both flags are unchanged. -/
theorem address_match_transitions (L : IoBits) (hL : L.Valid) (s : State)
    (hs : s.USI_TWI_Overflow_State = TWI_SLAVE_CHECK_ADDRESS)
    (hm : s.USIDR &&& 0xfe = s.TWI_slaveAddress) :
    ∃ t, USI_OVERFLOW L s = some t ∧ ackArmed L t ∧
      (s.USIDR &&& 0x01 = 0 →
        t.TWI_rxBufIdx = 0 ∧ t.USI_TWI_Overflow_State = TWI_SLAVE_REQUEST_DATA ∧
        t.TWI_txBufIdx = s.TWI_txBufIdx) ∧
      (s.USIDR &&& 0x01 ≠ 0 →
        t.TWI_txBufIdx = 0 ∧ t.USI_TWI_Overflow_State = TWI_SLAVE_SEND_DATA ∧
        t.TWI_rxBufIdx = s.TWI_rxBufIdx) ∧
      t.TWI_RxBuf = s.TWI_RxBuf ∧ t.TWI_TxBuf = s.TWI_TxBuf ∧
      t.bNewIncomingFrame = s.bNewIncomingFrame ∧
      t.bNewIncomingByte = s.bNewIncomingByte := by
  rw [overflow_checkAddress L s hs, if_pos hm]
  by_cases hd : s.USIDR &&& 0x01 ≠ 0
  · rw [if_pos hd]
    exact ⟨_, rfl, sendAck_isArmed L hL _, fun h0 => absurd h0 hd,
      fun _ => ⟨rfl, rfl, rfl⟩, rfl, rfl, rfl, rfl⟩
  · rw [if_neg hd]
    exact ⟨_, rfl, sendAck_isArmed L hL _, fun _ => ⟨rfl, rfl, rfl⟩,
      fun h1 => absurd h1 hd, rfl, rfl, rfl, rfl⟩

/-- C14 at a device with address 0x40 that finds the address bytes 0x40 (write)
and 0x41 (read). -/
theorem address_match_transitions_witness :
    (∃ t, USI_OVERFLOW attiny2313 (shiftIn 0x40
        { rxFullState with USI_TWI_Overflow_State := TWI_SLAVE_CHECK_ADDRESS }) = some t ∧
      t.TWI_rxBufIdx = 0 ∧ t.USI_TWI_Overflow_State = TWI_SLAVE_REQUEST_DATA) ∧
    (∃ t, USI_OVERFLOW attiny2313 (shiftIn 0x41
        { txEndState with USI_TWI_Overflow_State := TWI_SLAVE_CHECK_ADDRESS }) = some t ∧
      t.TWI_txBufIdx = 0 ∧ t.USI_TWI_Overflow_State = TWI_SLAVE_SEND_DATA) :=
  ⟨(address_match_transitions attiny2313 attiny2313_valid (shiftIn 0x40
      { rxFullState with USI_TWI_Overflow_State := TWI_SLAVE_CHECK_ADDRESS })
      rfl (by decide)).imp
      (fun _ g => ⟨g.1, (g.2.2.1 (by decide)).1, (g.2.2.1 (by decide)).2.1⟩),
    (address_match_transitions attiny2313 attiny2313_valid (shiftIn 0x41
      { txEndState with USI_TWI_Overflow_State := TWI_SLAVE_CHECK_ADDRESS })
      rfl (by decide)).imp
      (fun _ g => ⟨g.1, (g.2.2.2.1 (by decide)).1, (g.2.2.2.1 (by decide)).2.1⟩)⟩

theorem and_fe_even (b : Nat) : (b &&& 0xfe) % 2 = 0 := by
  have h : (b &&& 0xfe).testBit 0 = false := by
    rw [Nat.testBit_and]
    simp
  rw [Nat.testBit_zero] at h
  have h2 := of_decide_eq_false h
  omega

/-- C19: when `TWI_slaveAddress` has its least-significant bit set, the
CHECK_ADDRESS step rejects every byte `b` it can find in the data register: it
forces idle, does not arm the acknowledge, leaves the data register alone and
resets neither index. -/
theorem odd_address_unaddressable (L : IoBits) (hL : L.Valid) (s : State)
    (hs : s.USI_TWI_Overflow_State = TWI_SLAVE_CHECK_ADDRESS)
    (hodd : s.TWI_slaveAddress % 2 = 1) (b : Nat) :
    rejects L (shiftIn b s) ∧ ¬ accepts L (shiftIn b s) ∧
    ∃ t, USI_OVERFLOW L (shiftIn b s) = some t ∧ idleConfig L t ∧ ¬ ackArmed L t ∧
      t.USIDR = b ∧ t.TWI_rxBufIdx = s.TWI_rxBufIdx ∧ t.TWI_txBufIdx = s.TWI_txBufIdx ∧
      t.USI_TWI_Overflow_State = TWI_SLAVE_CHECK_ADDRESS := by
  have hm : (shiftIn b s).USIDR &&& 0xfe ≠ (shiftIn b s).TWI_slaveAddress := by
    intro h
    have h1 := and_fe_even b
    have h2 : (b &&& 0xfe) = s.TWI_slaveAddress := h
    omega
  have hacc := checkAddress_accepts_iff L hL (shiftIn b s) hs
  have hi := idle_isIdle L hL (shiftIn b s)
  refine ⟨hacc.2.mpr hm, fun ha => hm (hacc.1.mp ha), SET_TWI_TO_START_CONDITION_MODE L
    (shiftIn b s), ?_, hi, fun ha => ackArmed_not_idle L _ ha hi, rfl, rfl, rfl, hs⟩
  rw [overflow_checkAddress L (shiftIn b s) hs, if_neg hm]

/-- C19 at a device configured with the odd address 0x41 that finds the byte
0x41 itself. -/
theorem odd_address_unaddressable_witness :
    oddAddressState.TWI_slaveAddress % 2 = 1 ∧
    rejects attiny2313 (shiftIn 0x41 oddAddressState) :=
  ⟨by decide,
    (odd_address_unaddressable attiny2313 attiny2313_valid oddAddressState rfl
      (by decide) 0x41).1⟩

/-- C15, as the code has it, found false at an exhausted transmit buffer: with
`TWI_txBufIdx = 20` and an acknowledge sampled, the step from the reply check
ends in overflow state CHECK_REPLY_FROM_SEND_DATA, the step from SEND_DATA in
overflow state SEND_DATA: the force-idle path returns without storing a
state. -/
theorem fall_through_differs_when_exhausted :
    (USI_OVERFLOW attiny2313 txEndState).map (fun t => t.USI_TWI_Overflow_State)
      = some TWI_SLAVE_CHECK_REPLY_FROM_SEND_DATA ∧
    (USI_OVERFLOW attiny2313
      { txEndState with USI_TWI_Overflow_State := TWI_SLAVE_SEND_DATA }).map
      (fun t => t.USI_TWI_Overflow_State) = some TWI_SLAVE_SEND_DATA := by
  decide

/-- C15, amended: in the reply check with an acknowledge sampled (data register
0) and `TWI_txBufIdx` below 20, the overflow step gives exactly the state the
step gives from the same state with the overflow state replaced by SEND_DATA;
with `TWI_txBufIdx` at 20 or more both steps force idle (each result is the
start-condition mode digest applied to its own starting state, which is the
idle configuration) and the two resulting states agree except for the overflow
state, which the force-idle path leaves as each step found it. -/
theorem fall_through_equivalence (L : IoBits) (s : State)
    (hs : s.USI_TWI_Overflow_State = TWI_SLAVE_CHECK_REPLY_FROM_SEND_DATA)
    (h0 : s.USIDR = 0) :
    (s.TWI_txBufIdx < TWI_TX_BUFFER_SIZE → ∃ t, USI_OVERFLOW L s = some t ∧
      USI_OVERFLOW L { s with USI_TWI_Overflow_State := TWI_SLAVE_SEND_DATA } = some t) ∧
    (TWI_TX_BUFFER_SIZE ≤ s.TWI_txBufIdx → ∃ t, USI_OVERFLOW L s = some t ∧
      USI_OVERFLOW L { s with USI_TWI_Overflow_State := TWI_SLAVE_SEND_DATA }
        = some { t with USI_TWI_Overflow_State := TWI_SLAVE_SEND_DATA } ∧
      t.USI_TWI_Overflow_State = TWI_SLAVE_CHECK_REPLY_FROM_SEND_DATA ∧
      t = SET_TWI_TO_START_CONDITION_MODE L s ∧
      ({ t with USI_TWI_Overflow_State := TWI_SLAVE_SEND_DATA } : State)
        = SET_TWI_TO_START_CONDITION_MODE L
            { s with USI_TWI_Overflow_State := TWI_SLAVE_SEND_DATA } ∧
      (L.Valid → idleConfig L t ∧
        idleConfig L { t with USI_TWI_Overflow_State := TWI_SLAVE_SEND_DATA })) := by
  have e1 : USI_OVERFLOW L s = caseSendData L s := by
    rw [overflow_checkReply L s hs, if_neg (by simp [h0])]
  have e2 : USI_OVERFLOW L { s with USI_TWI_Overflow_State := TWI_SLAVE_SEND_DATA }
      = caseSendData L { s with USI_TWI_Overflow_State := TWI_SLAVE_SEND_DATA } :=
    overflow_sendData L _ rfl
  constructor
  · intro h
    have h2 : ({ s with USI_TWI_Overflow_State := TWI_SLAVE_SEND_DATA } : State).TWI_txBufIdx
        < TWI_TX_BUFFER_SIZE := h
    rw [e1, e2, caseSendData_load L s h, caseSendData_load L _ h2]
    exact ⟨_, rfl, rfl⟩
  · intro h
    have h1 : ¬ s.TWI_txBufIdx < TWI_TX_BUFFER_SIZE := by omega
    have h2 : ¬ ({ s with USI_TWI_Overflow_State := TWI_SLAVE_SEND_DATA } : State).TWI_txBufIdx
        < TWI_TX_BUFFER_SIZE := h1
    rw [e1, e2, caseSendData_exhausted L s h1, caseSendData_exhausted L _ h2]
    exact ⟨_, rfl, rfl, hs, rfl, rfl, fun hL => ⟨idle_isIdle L hL s,
      idle_isIdle L hL { s with USI_TWI_Overflow_State := TWI_SLAVE_SEND_DATA }⟩⟩

/-- C15, amended, at a device whose first byte was acknowledged, and at one
whose transmit buffer is used up. -/
theorem fall_through_equivalence_witness :
    (∃ t, USI_OVERFLOW attiny2313 (shiftIn 0 replyTwoState) = some t ∧
      USI_OVERFLOW attiny2313
        { shiftIn 0 replyTwoState with USI_TWI_Overflow_State := TWI_SLAVE_SEND_DATA }
        = some t) ∧
    (∃ t, USI_OVERFLOW attiny2313 txEndState = some t ∧
      t.USI_TWI_Overflow_State = TWI_SLAVE_CHECK_REPLY_FROM_SEND_DATA ∧
      idleConfig attiny2313 t) :=
  ⟨(fall_through_equivalence attiny2313 (shiftIn 0 replyTwoState) rfl rfl).1 (by decide),
    ((fall_through_equivalence attiny2313 txEndState rfl rfl).2 (by decide)).imp
      (fun _ g => ⟨g.1, g.2.2.1, (g.2.2.2.2.2 attiny2313_valid).1⟩)⟩

/-- C16, as the code has it, found false at two states of the reply check: with
2 in the data register (least-significant bit clear) the step forces idle and
loads nothing; with 0 in the data register and `TWI_txBufIdx = 20` the step
forces idle although the sampled bit is clear. -/
theorem reply_check_tests_whole_register :
    Nat.testBit 2 0 = false ∧
    (USI_OVERFLOW attiny2313 replyTwoState).map
      (fun t => (t.USICR.testBit attiny2313.USIOIE,
        t.DDR_USI.testBit (PORT_TWI_SDA attiny2313), t.USIDR, t.TWI_txBufIdx))
      = some (false, false, 2, 1) ∧
    (USI_OVERFLOW attiny2313 txEndState).map
      (fun t => (t.USICR.testBit attiny2313.USIOIE,
        t.DDR_USI.testBit (PORT_TWI_SDA attiny2313), t.USIDR, t.TWI_txBufIdx))
      = some (false, false, 0, 20) := by
  decide

/-- C16, amended: at the reply check the step takes the force-idle branch
exactly when the data register is non-zero; for the values 0 and 1, the ones a
one-bit sample into the cleared register gives, that is exactly when the
least-significant bit is set.  With the data register 0 the step does what
SEND_DATA does: with `TWI_txBufIdx` below 20 it loads the next byte and arms
its transmission, with the index at 20 or more it forces idle.  So the step
ends in the idle configuration exactly when the data register is non-zero or
the transmit buffer is used up. -/
theorem reply_decided_by_register (L : IoBits) (hL : L.Valid) (s : State)
    (hs : s.USI_TWI_Overflow_State = TWI_SLAVE_CHECK_REPLY_FROM_SEND_DATA) :
    ∃ t, USI_OVERFLOW L s = some t ∧
      (s.USIDR ≠ 0 → t = SET_TWI_TO_START_CONDITION_MODE L s ∧ t.USIDR = s.USIDR ∧
        t.TWI_txBufIdx = s.TWI_txBufIdx) ∧
      (s.USIDR = 0 → USI_OVERFLOW L s = caseSendData L s) ∧
      (s.USIDR = 0 → ∀ h : s.TWI_txBufIdx < TWI_TX_BUFFER_SIZE,
        t.USIDR = s.TWI_TxBuf ⟨s.TWI_txBufIdx, h⟩ ∧
        t.TWI_txBufIdx = s.TWI_txBufIdx + 1 ∧
        t.USI_TWI_Overflow_State = TWI_SLAVE_REQUEST_REPLY_FROM_SEND_DATA ∧
        t.DDR_USI.testBit (PORT_TWI_SDA L) = true ∧ counterValue L t = 0) ∧
      (idleConfig L t ↔ (s.USIDR ≠ 0 ∨ TWI_TX_BUFFER_SIZE ≤ s.TWI_txBufIdx)) ∧
      (s.USIDR < 2 → (s.USIDR ≠ 0 ↔ s.USIDR.testBit 0 = true)) := by
  have hbit : s.USIDR < 2 → (s.USIDR ≠ 0 ↔ s.USIDR.testBit 0 = true) := by
    intro h
    rw [Nat.testBit_zero]
    simp only [decide_eq_true_eq]
    omega
  have e := overflow_checkReply L s hs
  by_cases hx : s.USIDR ≠ 0
  · rw [if_pos hx] at e
    refine ⟨_, e, fun _ => ⟨rfl, rfl, rfl⟩, fun h0 => absurd h0 hx,
      fun h0 => absurd h0 hx, ?_, hbit⟩
    exact ⟨fun _ => Or.inl hx, fun _ => idle_isIdle L hL s⟩
  · rw [if_neg hx] at e
    by_cases h : s.TWI_txBufIdx < TWI_TX_BUFFER_SIZE
    · obtain ⟨t, e2, f1, f2, f3, -, f5, f6⟩ := sendData_load L hL s h
      refine ⟨t, by rw [e, e2], fun h1 => absurd h1 hx, fun _ => e,
        fun _ _ => ⟨f2, f3, f1, f5, f6⟩, ?_, hbit⟩
      constructor
      · intro hi
        rw [hi.2.2] at f5
        exact absurd f5 Bool.false_ne_true
      · intro hor
        rcases hor with h1 | h1
        · exact absurd h1 hx
        · omega
    · refine ⟨_, by rw [e, caseSendData_exhausted L s h], fun h1 => absurd h1 hx,
        fun _ => e, fun _ h1 => absurd h1 h, ?_, hbit⟩
      exact ⟨fun _ => Or.inr (by omega), fun _ => idle_isIdle L hL s⟩

/-- C16, amended, at the ATtiny2313: the value 2 in the data register forces
idle, and an acknowledge after the first byte loads `TWI_TxBuf[1]`. -/
theorem reply_decided_by_register_witness :
    (∃ t, USI_OVERFLOW attiny2313 replyTwoState = some t ∧ idleConfig attiny2313 t) ∧
    (∃ t, USI_OVERFLOW attiny2313 (shiftIn 0 replyTwoState) = some t ∧
      t.USIDR = replyTwoState.TWI_TxBuf 1 ∧ t.TWI_txBufIdx = 2) :=
  ⟨(reply_decided_by_register attiny2313 attiny2313_valid replyTwoState rfl).imp
      (fun _ g => ⟨g.1, g.2.2.2.2.1.mpr (Or.inl (by decide))⟩),
    (reply_decided_by_register attiny2313 attiny2313_valid (shiftIn 0 replyTwoState) rfl).imp
      (fun _ g => ⟨g.1, (g.2.2.2.1 rfl (by decide)).1, (g.2.2.2.1 rfl (by decide)).2.1⟩)⟩

end I2cSlave
